import Mathlib

/-!
Verification of the Aegis trade-cost estimation engine.

This file gives a shallow embedding, in Lean 4, of the core components of
the Python source under `src/`:

  * `src/data/market_data.py`    (OrderBook, MarketMetrics)
  * `src/models/volatility.py`   (VolatilityCalculator)
  * `src/models/slippage.py`     (SlippageModel)
  * `src/models/market_impact.py`(MarketImpactModel)
  * `src/models/maker_taker.py`  (MakerTakerEstimator)
  * `src/models/fee_calculator.py` (FeeCalculator, FeeTier)
  * `src/utils/caching.py`       (LRUCache)
  * `src/services/simulator.py`  (TradeSimulator)

Numeric conventions of the embedding.  Python floats are idealized as exact
rational numbers, but the two behaviours of CPython floats that are visible
as *control flow or distinguished values* in this code base are modelled
explicitly:

  * `float('inf')` (produced by `OrderBook.best_ask` on an empty ask list)
    and `nan` (producible by arithmetic on infinities) are constructors of
    the value type `PyVal` below, with CPython comparison and arithmetic
    rules (`nan` compares false, `inf - finite = inf`, `0 * inf = nan`, ...);
  * division by (exact) zero raises `ZeroDivisionError`, and `math.sqrt` of
    a negative raises `ValueError`; fallible computations therefore live in
    `Except PyErr`.

`math.sqrt` on non-negative finite input is transcendental, so it is not a
computable map `ℚ → ℚ`; every definition that needs it takes an abstract
parameter `psqrt : ℚ → ℚ` standing for the (non-negative) square root on
finite non-negative arguments.  Theorems quantify over `psqrt` (adding the
properties of the genuine square root as hypotheses when a theorem needs
them, e.g. `psqrt 0 = 0`), so each statement holds in particular for the
mathematical square root.

Wall-clock readings (`time.time()`, `datetime.now()`) are inputs of the
embedding, bundled in a `Clock` record.
-/

namespace Aegis

/-- A Python runtime exception that the modelled code can raise. -/
inductive PyErr where
  /-- `ZeroDivisionError`, raised by `x / y` when `y` is (exactly) zero. -/
  | zeroDivision
  /-- `ValueError`, raised e.g. by `math.sqrt` of a negative or `min([])`. -/
  | valueError
  /-- `AttributeError`, raised when reading an attribute never assigned. -/
  | attributeError (attr : String)
deriving DecidableEq, Repr

/-- The value domain of a CPython float, idealizing finite floats as exact
rationals: a finite rational, the two infinities, or `nan`. -/
inductive PyVal where
  | fin (q : ℚ)
  | pinf
  | ninf
  | nan
deriving DecidableEq, Repr

namespace PyVal

/-- Negation of a float. -/
def neg : PyVal → PyVal
  | fin q => fin (-q)
  | pinf => ninf
  | ninf => pinf
  | nan => nan

/-- Addition, with CPython rules for infinities and `nan`
(`inf + (-inf) = nan`, `nan` absorbs). -/
def add : PyVal → PyVal → PyVal
  | fin a, fin b => fin (a + b)
  | fin _, pinf => pinf
  | fin _, ninf => ninf
  | pinf, fin _ => pinf
  | ninf, fin _ => ninf
  | pinf, pinf => pinf
  | ninf, ninf => ninf
  | pinf, ninf => nan
  | ninf, pinf => nan
  | _, _ => nan

/-- Subtraction (`a - b = a + (-b)`). -/
def sub (a b : PyVal) : PyVal := add a (neg b)

/-- Multiplication, with CPython rules (`0 * inf = nan`, sign rules for
infinities, `nan` absorbs). -/
def mul : PyVal → PyVal → PyVal
  | fin a, fin b => fin (a * b)
  | fin a, pinf => if a > 0 then pinf else if a < 0 then ninf else nan
  | fin a, ninf => if a > 0 then ninf else if a < 0 then pinf else nan
  | pinf, fin b => if b > 0 then pinf else if b < 0 then ninf else nan
  | ninf, fin b => if b > 0 then ninf else if b < 0 then pinf else nan
  | pinf, pinf => pinf
  | ninf, ninf => pinf
  | pinf, ninf => ninf
  | ninf, pinf => ninf
  | _, _ => nan

/-- Strict comparison `a < b` as CPython evaluates it: any comparison
involving `nan` is false. -/
def lt : PyVal → PyVal → Bool
  | fin a, fin b => a < b
  | fin _, pinf => true
  | fin _, ninf => false
  | pinf, fin _ => false
  | ninf, fin _ => true
  | ninf, pinf => true
  | pinf, ninf => false
  | pinf, pinf => false
  | ninf, ninf => false
  | _, _ => false

/-- Non-strict comparison `a <= b`; false on any `nan` operand. -/
def le : PyVal → PyVal → Bool
  | fin a, fin b => a ≤ b
  | fin _, pinf => true
  | fin _, ninf => false
  | pinf, fin _ => false
  | ninf, fin _ => true
  | ninf, pinf => true
  | pinf, ninf => false
  | pinf, pinf => true
  | ninf, ninf => true
  | _, _ => false

/-- CPython `max(a, b)`: scans left to right keeping the current value
unless the next is strictly greater, i.e. returns `b` exactly when `a < b`. -/
def pymax (a b : PyVal) : PyVal := if lt a b then b else a

/-- CPython `min(a, b)`: returns `b` exactly when `b < a`. -/
def pymin (a b : PyVal) : PyVal := if lt b a then b else a

/-- Division core, used where the source divides by a value that is
statically a nonzero literal or guarded positive (so CPython cannot raise);
the `fin 0` denominator case is unreachable at every use site and is mapped
to `nan`.  Finite/infinite and infinite/finite follow CPython rules. -/
def divCore : PyVal → PyVal → PyVal
  | fin a, fin b => if b = 0 then nan else fin (a / b)
  | fin _, pinf => fin 0
  | fin _, ninf => fin 0
  | pinf, fin b => if b = 0 then nan else if b > 0 then pinf else ninf
  | ninf, fin b => if b = 0 then nan else if b > 0 then ninf else pinf
  | pinf, pinf => nan
  | pinf, ninf => nan
  | ninf, pinf => nan
  | ninf, ninf => nan
  | _, _ => nan

/-- CPython division `a / b`: raises `ZeroDivisionError` when `b` is the
float zero (whatever `a` is, including `nan`), otherwise `divCore`. -/
def div (a b : PyVal) : Except PyErr PyVal :=
  if b = fin 0 then Except.error PyErr.zeroDivision else Except.ok (divCore a b)

/-- `math.sqrt`, relative to an abstract square root `psqrt : ℚ → ℚ` on
finite non-negative arguments: raises `ValueError` on negative input,
maps `inf` to `inf` and `nan` to `nan`. -/
def sqrt (psqrt : ℚ → ℚ) : PyVal → Except PyErr PyVal
  | fin q => if q < 0 then Except.error PyErr.valueError else Except.ok (fin (psqrt q))
  | pinf => Except.ok pinf
  | ninf => Except.error PyErr.valueError
  | nan => Except.ok nan

/-- Sum of a list of floats, as Python `sum` (left fold starting at `0`). -/
def listSum (l : List PyVal) : PyVal := l.foldl add (fin 0)

end PyVal

/-! ## `src/data/market_data.py` -/

/-- `OrderBookLevel`: one level of the book.  Prices and quantities arrive
as finite floats from the data feed, idealized as rationals. -/
structure OrderBookLevel where
  price : ℚ
  quantity : ℚ
deriving DecidableEq, Repr

/-- `OrderBook`: an L2 snapshot.  The `timestamp` is opaque wall-clock
data and the embedding keeps it as a string (its ISO form); it is never
computed with. -/
structure OrderBook where
  timestamp : String
  exchange : String
  symbol : String
  asks : List OrderBookLevel
  bids : List OrderBookLevel
deriving DecidableEq, Repr

namespace OrderBook

/-- `best_ask`: the first ask level's price, or `float('inf')` when the ask
list is empty. -/
def best_ask (ob : OrderBook) : PyVal :=
  match ob.asks with
  | [] => PyVal.pinf
  | l :: _ => PyVal.fin l.price

/-- `best_bid`: the first bid level's price, or `0.0` when the bid list is
empty. -/
def best_bid (ob : OrderBook) : PyVal :=
  match ob.bids with
  | [] => PyVal.fin 0
  | l :: _ => PyVal.fin l.price

/-- `mid_price = (best_ask + best_bid) / 2` (the divisor is the literal 2,
so this division cannot raise). -/
def mid_price (ob : OrderBook) : PyVal :=
  PyVal.divCore (PyVal.add ob.best_ask ob.best_bid) (PyVal.fin 2)

/-- `spread = best_ask - best_bid`. -/
def spread (ob : OrderBook) : PyVal :=
  PyVal.sub ob.best_ask ob.best_bid

end OrderBook

/-- `MarketMetrics`: the derived per-update summary. -/
structure MarketMetrics where
  timestamp : String
  symbol : String
  mid_price : PyVal
  spread : PyVal
  bid_depth : PyVal
  ask_depth : PyVal
  volatility : PyVal
deriving DecidableEq, Repr

/-- Ask levels sorted ascending by price (the `OrderBook` invariant). -/
def asksSorted (ob : OrderBook) : Prop :=
  ob.asks.Pairwise (fun a b => a.price ≤ b.price)

/-- Bid levels sorted descending by price (the `OrderBook` invariant). -/
def bidsSorted (ob : OrderBook) : Prop :=
  ob.bids.Pairwise (fun a b => b.price ≤ a.price)

/-- A crossed book: each side is (trivially) sorted, both sides are
non-empty, yet the best bid exceeds the best ask. -/
def crossedBook : OrderBook :=
  { timestamp := "t0", exchange := "OKX", symbol := "BTC-USDT"
    asks := [{ price := 1, quantity := 1 }]
    bids := [{ price := 2, quantity := 1 }] }

/-- C5 (counterexample): for the crossed book, the ask and bid sequences
are sorted and non-empty but `spread()` is negative, so the claim's
conjunct `spread ≥ 0` fails as stated. -/
theorem crossedBook_spread_neg :
    asksSorted crossedBook ∧ bidsSorted crossedBook ∧
    crossedBook.asks ≠ [] ∧ crossedBook.bids ≠ [] ∧
    PyVal.le (PyVal.fin 0) crossedBook.spread = false := by
  refine ⟨?_, ?_, ?_, ?_, ?_⟩
  · simp [asksSorted, crossedBook]
  · simp [bidsSorted, crossedBook]
  · simp [crossedBook]
  · simp [crossedBook]
  · norm_num [crossedBook, OrderBook.spread, OrderBook.best_ask,
      OrderBook.best_bid, PyVal.sub, PyVal.neg, PyVal.add, PyVal.le]

/-- C5 (amended): for every `OrderBook` with asks ascending and bids
descending, `best_ask()` is ≤ every ask price and `best_bid()` is ≥ every
bid price; and `spread() ≥ 0` whenever both sides are non-empty *and the
book is uncrossed* (`best_bid ≤ best_ask`). -/
theorem orderbook_bounds_spread (ob : OrderBook)
    (ha : asksSorted ob) (hb : bidsSorted ob) :
    (∀ l ∈ ob.asks, PyVal.le ob.best_ask (PyVal.fin l.price) = true) ∧
    (∀ l ∈ ob.bids, PyVal.le (PyVal.fin l.price) ob.best_bid = true) ∧
    (ob.asks ≠ [] → ob.bids ≠ [] →
      PyVal.le ob.best_bid ob.best_ask = true →
      PyVal.le (PyVal.fin 0) ob.spread = true) := by
  refine ⟨?_, ?_, ?_⟩
  · intro l hl
    unfold asksSorted at ha
    unfold OrderBook.best_ask
    cases h : ob.asks with
    | nil => rw [h] at hl; cases hl
    | cons a as =>
      rw [h] at hl ha
      rw [List.pairwise_cons] at ha
      simp only [PyVal.le, decide_eq_true_iff]
      rcases List.mem_cons.mp hl with rfl | hmem
      · exact le_refl _
      · exact ha.1 l hmem
  · intro l hl
    unfold bidsSorted at hb
    unfold OrderBook.best_bid
    cases h : ob.bids with
    | nil => rw [h] at hl; cases hl
    | cons b bs =>
      rw [h] at hl hb
      rw [List.pairwise_cons] at hb
      simp only [PyVal.le, decide_eq_true_iff]
      rcases List.mem_cons.mp hl with rfl | hmem
      · exact le_refl _
      · exact hb.1 l hmem
  · intro hane hbne hcross
    unfold OrderBook.spread
    unfold OrderBook.best_ask OrderBook.best_bid at hcross ⊢
    cases ha2 : ob.asks with
    | nil => exact absurd ha2 hane
    | cons a as =>
      cases hb2 : ob.bids with
      | nil => exact absurd hb2 hbne
      | cons b bs =>
        rw [ha2, hb2] at hcross
        simp only [PyVal.le, decide_eq_true_iff] at hcross
        simp only [PyVal.sub, PyVal.neg, PyVal.add, PyVal.le,
          decide_eq_true_iff]
        linarith

/-- A concrete sorted, uncrossed two-level book, used to witness C5. -/
def sampleBook : OrderBook :=
  { timestamp := "t1", exchange := "OKX", symbol := "BTC-USDT"
    asks := [{ price := 100, quantity := 5 }, { price := 101, quantity := 2 }]
    bids := [{ price := 99, quantity := 4 }, { price := 98, quantity := 1 }] }

/-- C5 (witness): the amended theorem applied to `sampleBook`. -/
theorem orderbook_bounds_spread_witness :
    asksSorted sampleBook ∧ bidsSorted sampleBook ∧
    ((∀ l ∈ sampleBook.asks,
        PyVal.le sampleBook.best_ask (PyVal.fin l.price) = true) ∧
     (∀ l ∈ sampleBook.bids,
        PyVal.le (PyVal.fin l.price) sampleBook.best_bid = true) ∧
     (sampleBook.asks ≠ [] → sampleBook.bids ≠ [] →
      PyVal.le sampleBook.best_bid sampleBook.best_ask = true →
      PyVal.le (PyVal.fin 0) sampleBook.spread = true)) :=
  ⟨by norm_num [asksSorted, sampleBook], by norm_num [bidsSorted, sampleBook],
    orderbook_bounds_spread sampleBook (by norm_num [asksSorted, sampleBook])
      (by norm_num [bidsSorted, sampleBook])⟩

/-! ## `src/models/fee_calculator.py` -/

/-- `FeeTier`: the OKX fee tier enumeration. -/
inductive FeeTier where
  | TIER1
  | TIER2
  | TIER3
  | TIER4
  | TIER5
deriving DecidableEq, Repr

/-- The maker/taker rate pair of one tier. -/
structure FeeRates where
  maker : ℚ
  taker : ℚ
deriving DecidableEq, Repr

/-- `FeeCalculator.fee_structure`, the constant table built by
`FeeCalculator.__init__` (it is never mutated afterwards). -/
def fee_structure : FeeTier → FeeRates
  | FeeTier.TIER1 => { maker := 0.00080, taker := 0.00100 }
  | FeeTier.TIER2 => { maker := 0.00065, taker := 0.00085 }
  | FeeTier.TIER3 => { maker := 0.00050, taker := 0.00075 }
  | FeeTier.TIER4 => { maker := 0.00035, taker := 0.00060 }
  | FeeTier.TIER5 => { maker := 0.00025, taker := 0.00045 }

/-- The result dict of `FeeCalculator.calculate_fees`. -/
structure FeeResults where
  maker_fee_rate : PyVal
  taker_fee_rate : PyVal
  maker_fee : PyVal
  taker_fee : PyVal
  total_fee : PyVal
  effective_fee_rate : PyVal
deriving DecidableEq, Repr

/-- The all-zero fee result returned when `order_value <= 0`. -/
def zeroFeeResults : FeeResults :=
  { maker_fee_rate := PyVal.fin 0, taker_fee_rate := PyVal.fin 0
    maker_fee := PyVal.fin 0, taker_fee := PyVal.fin 0
    total_fee := PyVal.fin 0, effective_fee_rate := PyVal.fin 0 }

/-- `FeeCalculator.calculate_fees(order_value, fee_tier, maker_proportion)`. -/
def calculate_fees (order_value : PyVal) (fee_tier : FeeTier)
    (maker_proportion : PyVal) : FeeResults :=
  if PyVal.le order_value (PyVal.fin 0) then zeroFeeResults
  else
    let mp := PyVal.pymax (PyVal.fin 0) (PyVal.pymin (PyVal.fin 1) maker_proportion)
    let tp := PyVal.sub (PyVal.fin 1) mp
    let maker_fee_rate := PyVal.fin (fee_structure fee_tier).maker
    let taker_fee_rate := PyVal.fin (fee_structure fee_tier).taker
    let maker_order_value := PyVal.mul order_value mp
    let taker_order_value := PyVal.mul order_value tp
    let maker_fee := PyVal.mul maker_order_value maker_fee_rate
    let taker_fee := PyVal.mul taker_order_value taker_fee_rate
    let total_fee := PyVal.add maker_fee taker_fee
    let effective_fee_rate :=
      if PyVal.lt (PyVal.fin 0) order_value
      then PyVal.divCore total_fee order_value else PyVal.fin 0
    { maker_fee_rate := maker_fee_rate, taker_fee_rate := taker_fee_rate
      maker_fee := maker_fee, taker_fee := taker_fee
      total_fee := total_fee, effective_fee_rate := effective_fee_rate }

/-- The fee result that the specification's formulas describe, for a
positive order value `v`, tier rates, and maker proportion `m` clamped to
`[0,1]`.  Written from the spec's words, to be compared with
`calculate_fees`. -/
def feeResultsClaim (v : ℚ) (fee_tier : FeeTier) (m : ℚ) : FeeResults :=
  let p := max 0 (min 1 m)
  let mr := (fee_structure fee_tier).maker
  let tr := (fee_structure fee_tier).taker
  { maker_fee_rate := PyVal.fin mr
    taker_fee_rate := PyVal.fin tr
    maker_fee := PyVal.fin (v * p * mr)
    taker_fee := PyVal.fin (v * (1 - p) * tr)
    total_fee := PyVal.fin (v * (p * mr + (1 - p) * tr))
    effective_fee_rate := PyVal.fin (v * (p * mr + (1 - p) * tr) / v) }

/-- Clamping a finite maker proportion with CPython `max`/`min` equals the
rational clamp to `[0, 1]`. -/
theorem pyclamp_fin (m : ℚ) :
    PyVal.pymax (PyVal.fin 0) (PyVal.pymin (PyVal.fin 1) (PyVal.fin m)) =
      PyVal.fin (max 0 (min 1 m)) := by
  simp only [PyVal.pymin, PyVal.lt, decide_eq_true_eq]
  by_cases h1 : m < 1
  · simp only [if_pos h1, PyVal.pymax, PyVal.lt, decide_eq_true_eq]
    by_cases h0 : 0 < m
    · simp only [if_pos h0]
      rw [min_eq_right h1.le, max_eq_right h0.le]
    · simp only [if_neg h0]
      rw [min_eq_right h1.le, max_eq_left (le_of_not_lt h0)]
  · simp only [if_neg h1, PyVal.pymax, PyVal.lt, decide_eq_true_eq]
    rw [if_pos (by norm_num : (0:ℚ) < 1)]
    rw [min_eq_left (le_of_not_lt h1), max_eq_right (by norm_num : (0:ℚ) ≤ 1)]

/-- C6: for finite inputs, `calculate_fees` returns all-zero fields when
the order value is ≤ 0, and otherwise returns exactly the specification's
blended-fee formulas (with the maker proportion clamped to `[0,1]`). -/
theorem calculate_fees_formula (v m : ℚ) (fee_tier : FeeTier) :
    (v ≤ 0 → calculate_fees (PyVal.fin v) fee_tier (PyVal.fin m) = zeroFeeResults) ∧
    (0 < v → calculate_fees (PyVal.fin v) fee_tier (PyVal.fin m) =
      feeResultsClaim v fee_tier m) := by
  constructor
  · intro h
    unfold calculate_fees
    rw [if_pos]
    simp only [PyVal.le, decide_eq_true_eq]
    exact h
  · intro h
    unfold calculate_fees
    rw [if_neg (by simp only [PyVal.le, decide_eq_true_eq]; exact not_le.mpr h)]
    simp only [pyclamp_fin, PyVal.sub, PyVal.neg, PyVal.add, PyVal.mul,
      PyVal.lt, decide_eq_true_eq, if_pos h, PyVal.divCore,
      if_neg (ne_of_gt h)]
    unfold feeResultsClaim
    simp only [FeeResults.mk.injEq]
    refine ⟨trivial, trivial, ?_, ?_, ?_, ?_⟩
    · simp only [PyVal.fin.injEq]; try ring
    · simp only [PyVal.fin.injEq]; try ring
    · simp only [PyVal.fin.injEq]; try ring
    · simp only [PyVal.fin.injEq]
      rw [div_eq_div_iff (ne_of_gt h) (ne_of_gt h)]
      ring

/-- C6 (witness): the fee formula at order value 100, tier 1, maker
proportion one half. -/
theorem calculate_fees_formula_witness :
    (0 : ℚ) < 100 ∧
    calculate_fees (PyVal.fin 100) FeeTier.TIER1 (PyVal.fin (1/2)) =
      feeResultsClaim 100 FeeTier.TIER1 (1/2) :=
  ⟨by norm_num, (calculate_fees_formula 100 (1/2) FeeTier.TIER1).2 (by norm_num)⟩

/-! ## `src/utils/caching.py`

`LRUCache` keeps two dicts `cache` and `timestamps` that share their key
set and insertion order at all times (`set`, eviction and `clear` update
both in lockstep), so the embedding merges them into one entry list
`(key, value, last-touch tick)`.  `time.time()` is modelled as a strictly
increasing logical clock held in the state (each call returns the current
tick and advances it), which is the monotone-clock idealization of the
wall clock. -/

/-- The state of `LRUCache`. -/
structure LRUCache (V : Type) where
  entries : List (String × V × Nat)
  max_size : Nat
  hits : Nat
  misses : Nat
  clock : Nat

/-- `LRUCache.__init__(max_size)`. -/
def LRUCache.init (V : Type) (max_size : Nat) : LRUCache V :=
  { entries := [], max_size := max_size, hits := 0, misses := 0, clock := 0 }

/-- `self.timestamps[key] = time.time()`: refresh the tick of `key`
(dict update keeps the entry at its position). -/
def lruTouch {V : Type} (es : List (String × V × Nat)) (key : String) (t : Nat) :
    List (String × V × Nat) :=
  es.map (fun e => if e.1 = key then (e.1, e.2.1, t) else e)

/-- The scan performed by `min(self.timestamps.keys(), key=...)`: walk the
entries keeping the current one unless a strictly smaller tick appears
(CPython `min` keeps the earliest minimum). -/
def lruScan {V : Type} (best : String × V × Nat) (rest : List (String × V × Nat)) :
    String × V × Nat :=
  rest.foldl (fun b x => if x.2.2 < b.2.2 then x else b) best

/-- The eviction step of `LRUCache.set`: find the oldest key and delete
its entry (`del self.cache[k]; del self.timestamps[k]`). -/
def lruEvictOldest {V : Type} (es : List (String × V × Nat)) :
    List (String × V × Nat) :=
  match es with
  | [] => es
  | e :: rest => es.eraseP (fun x => x.1 == (lruScan e rest).1)

/-- `LRUCache.get(key)`: on a hit bump `hits`, refresh the key's tick and
return the value; on a miss bump `misses` and return `None`. -/
def LRUCache.get {V : Type} (c : LRUCache V) (key : String) :
    Option V × LRUCache V :=
  match c.entries.find? (fun e => e.1 == key) with
  | some e =>
    (some e.2.1,
     { c with hits := c.hits + 1,
              entries := lruTouch c.entries key c.clock,
              clock := c.clock + 1 })
  | none => (none, { c with misses := c.misses + 1 })

/-- `LRUCache.set(key, value)`: store the value with a fresh tick (a new
key is appended, an existing key is updated in place), then evict the
oldest entry when the size exceeds `max_size`. -/
def LRUCache.set {V : Type} (c : LRUCache V) (key : String) (v : V) :
    LRUCache V :=
  let es := if c.entries.any (fun e => e.1 == key)
            then c.entries.map (fun e => if e.1 = key then (key, v, c.clock) else e)
            else c.entries ++ [(key, v, c.clock)]
  let es2 := if c.max_size < es.length then lruEvictOldest es else es
  { c with entries := es2, clock := c.clock + 1 }

/-- Fold `set` over a list of key/value pairs, left to right. -/
def LRUCache.setAll {V : Type} (c : LRUCache V) (kvs : List (String × V)) :
    LRUCache V :=
  kvs.foldl (fun c kv => c.set kv.1 kv.2) c

/-- The entries produced by inserting fresh keys in order starting at
tick `t`. -/
def lruAnnot {V : Type} : List (String × V) → Nat → List (String × V × Nat)
  | [], _ => []
  | kv :: rest, t => (kv.1, kv.2, t) :: lruAnnot rest (t + 1)

/-- The min-scan keeps its start element when nothing later has a strictly
smaller tick. -/
theorem lruScan_stay {V : Type} (rest : List (String × V × Nat))
    (best : String × V × Nat) (h : ∀ x ∈ rest, ¬ x.2.2 < best.2.2) :
    lruScan best rest = best := by
  induction rest with
  | nil => rfl
  | cons x xs ih =>
    unfold lruScan
    rw [List.foldl_cons]
    rw [if_neg (h x (List.mem_cons_self x xs))]
    exact ih (fun y hy => h y (List.mem_cons_of_mem x hy))

/-- Touching a key that no entry carries leaves the entries unchanged. -/
theorem lruTouch_not_mem {V : Type} (es : List (String × V × Nat))
    (key : String) (t : Nat) (h : ∀ e ∈ es, e.1 ≠ key) :
    lruTouch es key t = es := by
  induction es with
  | nil => rfl
  | cons e es ih =>
    unfold lruTouch
    rw [List.map_cons]
    rw [if_neg (h e (List.mem_cons_self e es))]
    have := ih (fun y hy => h y (List.mem_cons_of_mem e hy))
    unfold lruTouch at this
    rw [this]

/-- Every tick in `lruAnnot kvs t` is at least `t`. -/
theorem lruAnnot_tick_ge {V : Type} (kvs : List (String × V)) (t : Nat) :
    ∀ x ∈ lruAnnot kvs t, t ≤ x.2.2 := by
  induction kvs generalizing t with
  | nil => intro x hx; cases hx
  | cons kv rest ih =>
    intro x hx
    unfold lruAnnot at hx
    rcases List.mem_cons.mp hx with rfl | hmem
    · exact le_refl t
    · exact le_trans (Nat.le_succ t) (ih (t + 1) x hmem)

/-- The keys of `lruAnnot kvs t` are the keys of `kvs`. -/
theorem lruAnnot_keys {V : Type} (kvs : List (String × V)) (t : Nat) :
    (lruAnnot kvs t).map (fun e => e.1) = kvs.map Prod.fst := by
  induction kvs generalizing t with
  | nil => rfl
  | cons kv rest ih => unfold lruAnnot; rw [List.map_cons, List.map_cons, ih]

/-- `lruAnnot` preserves length. -/
theorem lruAnnot_length {V : Type} (kvs : List (String × V)) (t : Nat) :
    (lruAnnot kvs t).length = kvs.length := by
  induction kvs generalizing t with
  | nil => rfl
  | cons kv rest ih => unfold lruAnnot; rw [List.length_cons, List.length_cons, ih]

/-- A single `set` of a fresh key, with room left, appends the entry and
advances the clock. -/
theorem lru_set_fresh {V : Type} (c : LRUCache V) (k : String) (v : V)
    (hfresh : ∀ e ∈ c.entries, e.1 ≠ k)
    (hroom : c.entries.length + 1 ≤ c.max_size) :
    c.set k v = { c with entries := c.entries ++ [(k, v, c.clock)],
                         clock := c.clock + 1 } := by
  have hany : (c.entries.any fun e => e.1 == k) = false := by
    rw [List.any_eq_false]
    intro e he
    simpa using hfresh e he
  have hlen2 : ¬ (c.max_size < (c.entries ++ [(k, v, c.clock)]).length) := by
    rw [List.length_append, List.length_singleton]
    omega
  simp only [LRUCache.set, hany]
  rw [if_neg Bool.false_ne_true]
  rw [if_neg hlen2]

/-- Filling a cache with fresh, distinct keys, within capacity, appends
the annotated entries and advances the clock by the number of keys. -/
theorem lru_setAll_fresh {V : Type} (kvs : List (String × V)) (c : LRUCache V)
    (hfresh : ∀ kv ∈ kvs, ∀ e ∈ c.entries, e.1 ≠ kv.1)
    (hnodup : (kvs.map Prod.fst).Nodup)
    (hlen : c.entries.length + kvs.length ≤ c.max_size) :
    (c.setAll kvs).entries = c.entries ++ lruAnnot kvs c.clock ∧
    (c.setAll kvs).clock = c.clock + kvs.length ∧
    (c.setAll kvs).max_size = c.max_size := by
  induction kvs generalizing c with
  | nil =>
    refine ⟨?_, ?_, rfl⟩
    · unfold LRUCache.setAll; rw [List.foldl_nil]; unfold lruAnnot
      rw [List.append_nil]
    · unfold LRUCache.setAll; rw [List.foldl_nil, List.length_nil]; omega
  | cons kv rest ih =>
    have hset : c.set kv.1 kv.2 =
        { c with entries := c.entries ++ [(kv.1, kv.2, c.clock)],
                 clock := c.clock + 1 } := by
      apply lru_set_fresh
      · exact fun e he => hfresh kv (List.mem_cons_self kv rest) e he
      · rw [List.length_cons] at hlen; omega
    have hstep : c.setAll (kv :: rest) = (c.set kv.1 kv.2).setAll rest := by
      unfold LRUCache.setAll
      rw [List.foldl_cons]
    rw [List.map_cons, List.nodup_cons] at hnodup
    have hfresh2 : ∀ kv2 ∈ rest, ∀ e ∈ (c.set kv.1 kv.2).entries, e.1 ≠ kv2.1 := by
      intro kv2 hkv2 e he
      rw [hset] at he
      simp only at he
      rcases List.mem_append.mp he with hold | hnew
      · exact hfresh kv2 (List.mem_cons_of_mem kv hkv2) e hold
      · rcases List.mem_singleton.mp hnew with rfl
        intro hcontra
        exact hnodup.1 (hcontra ▸ List.mem_map_of_mem Prod.fst hkv2)
    have hlen2 : (c.set kv.1 kv.2).entries.length + rest.length ≤
        (c.set kv.1 kv.2).max_size := by
      rw [hset]
      simp only [List.length_append, List.length_singleton]
      rw [List.length_cons] at hlen
      omega
    have hih := ih (c.set kv.1 kv.2) hfresh2 hnodup.2 hlen2
    rw [hstep, hset]
    rw [hset] at hih
    simp only at hih
    refine ⟨?_, ?_, ?_⟩
    · rw [hih.1]
      rw [List.append_assoc]
      rfl
    · rw [hih.2.1, List.length_cons]
      omega
    · exact hih.2.2

/-- Filling a fresh cache (`LRUCache.init`) with distinct keys within
capacity: entries are the annotated pairs from tick 0 and the clock equals
the number of keys. -/
theorem lru_setAll_init {V : Type} (kvs : List (String × V)) (m : Nat)
    (hnodup : (kvs.map Prod.fst).Nodup) (hlen : kvs.length ≤ m) :
    ((LRUCache.init V m).setAll kvs).entries = lruAnnot kvs 0 ∧
    ((LRUCache.init V m).setAll kvs).clock = kvs.length ∧
    ((LRUCache.init V m).setAll kvs).max_size = m := by
  have hfill := lru_setAll_fresh kvs (LRUCache.init V m)
    (by intro kv _ e he; simp [LRUCache.init] at he) hnodup
    (by simp [LRUCache.init]; omega)
  refine ⟨?_, ?_, ?_⟩
  · have h := hfill.1
    simpa [LRUCache.init] using h
  · have h := hfill.2.1
    simpa [LRUCache.init] using h
  · have h := hfill.2.2
    simpa [LRUCache.init] using h

/-- The in-place update map of `set` leaves entries unchanged when no
entry carries the key. -/
theorem lruUpdate_not_mem {V : Type} (es : List (String × V × Nat))
    (k : String) (v : V) (t : Nat) (h : ∀ e ∈ es, e.1 ≠ k) :
    es.map (fun e => if e.1 = k then (k, v, t) else e) = es := by
  induction es with
  | nil => rfl
  | cons e es ih =>
    rw [List.map_cons]
    rw [if_neg (h e (List.mem_cons_self e es))]
    rw [ih (fun y hy => h y (List.mem_cons_of_mem e hy))]

/-- Eviction removes the head entry when nothing after it has a strictly
smaller tick. -/
theorem lruEvictOldest_head {V : Type} (e : String × V × Nat)
    (rest : List (String × V × Nat)) (h : ∀ x ∈ rest, ¬ x.2.2 < e.2.2) :
    lruEvictOldest (e :: rest) = rest := by
  simp only [lruEvictOldest]
  rw [lruScan_stay rest e h]
  exact List.eraseP_cons_of_pos (by simp)

/-- Eviction removes the second entry when it has a strictly smaller tick
than the head and nothing later beats it. -/
theorem lruEvictOldest_second {V : Type} (e0 e1 : String × V × Nat)
    (rest : List (String × V × Nat)) (h01 : e1.2.2 < e0.2.2)
    (hrest : ∀ x ∈ rest, ¬ x.2.2 < e1.2.2) (hkey : e0.1 ≠ e1.1) :
    lruEvictOldest (e0 :: e1 :: rest) = e0 :: rest := by
  simp only [lruEvictOldest]
  have hscan : lruScan e0 (e1 :: rest) = e1 := by
    unfold lruScan
    rw [List.foldl_cons, if_pos h01]
    exact lruScan_stay rest e1 hrest
  rw [hscan]
  rw [List.eraseP_cons_of_neg (by simpa using hkey)]
  rw [List.eraseP_cons_of_pos (by simp)]

/-- A `set` of a fresh key that overflows the capacity appends the entry
and evicts the oldest. -/
theorem lru_set_overflow {V : Type} (c : LRUCache V) (k : String) (v : V)
    (hfresh : ∀ e ∈ c.entries, e.1 ≠ k)
    (hover : c.max_size < c.entries.length + 1) :
    c.set k v = { c with
      entries := lruEvictOldest (c.entries ++ [(k, v, c.clock)]),
      clock := c.clock + 1 } := by
  have hany : (c.entries.any fun e => e.1 == k) = false := by
    rw [List.any_eq_false]
    intro e he
    simpa using hfresh e he
  have hlen2 : c.max_size < (c.entries ++ [(k, v, c.clock)]).length := by
    rw [List.length_append, List.length_singleton]
    omega
  simp only [LRUCache.set, hany]
  rw [if_neg Bool.false_ne_true]
  rw [if_pos hlen2]

/-- A `set` of an existing key within capacity updates the entry in place
(refreshing its tick) and evicts nothing. -/
theorem lru_set_update {V : Type} (c : LRUCache V) (k : String) (v : V)
    (hmem : (c.entries.any fun e => e.1 == k) = true)
    (hroom : ¬ c.max_size < c.entries.length) :
    c.set k v = { c with
      entries := c.entries.map (fun e => if e.1 = k then (k, v, c.clock) else e),
      clock := c.clock + 1 } := by
  simp only [LRUCache.set, hmem, if_pos]
  rw [if_neg (by rw [List.length_map]; exact hroom)]

/-- A `get` that finds an entry bumps `hits` and refreshes the key's tick. -/
theorem lru_get_hit {V : Type} (c : LRUCache V) (k : String)
    (e : String × V × Nat)
    (hfind : c.entries.find? (fun x => x.1 == k) = some e) :
    c.get k = (some e.2.1,
      { c with hits := c.hits + 1,
               entries := lruTouch c.entries k c.clock,
               clock := c.clock + 1 }) := by
  unfold LRUCache.get
  rw [hfind]

/-- Shared ending of the recency scenarios: a cache holding the entry of
`a1` with tick `n` (just refreshed), the entry of `b1` with tick 1, and the
`rest` entries with ticks from 2, at full capacity `n = rest.length + 2`,
evicts `b1` (the least-recently-touched key) when a fresh key is inserted. -/
theorem lru_evict_after_refresh {V : Type} (a1 : String) (av : V) (b1 : String)
    (bv : V) (rest : List (String × V)) (fr : String × V) (c : LRUCache V)
    (n : Nat) (hn : n = rest.length + 2)
    (hent : c.entries = (a1, av, n) :: (b1, bv, 1) :: lruAnnot rest 2)
    (hclock : c.clock = n + 1) (hmax : c.max_size = n)
    (hab : a1 ≠ b1)
    (hfa : a1 ≠ fr.1) (hfb : b1 ≠ fr.1) (hfr : fr.1 ∉ rest.map Prod.fst) :
    (c.set fr.1 fr.2).entries.map (fun e => e.1) =
      a1 :: rest.map Prod.fst ++ [fr.1] := by
  have hfresh : ∀ e ∈ c.entries, e.1 ≠ fr.1 := by
    intro e he
    rw [hent] at he
    rcases List.mem_cons.mp he with rfl | he2
    · exact hfa
    · rcases List.mem_cons.mp he2 with rfl | he3
      · exact hfb
      · intro hcontra
        apply hfr
        rw [← hcontra, ← lruAnnot_keys rest 2]
        exact List.mem_map_of_mem _ he3
  have hover : c.max_size < c.entries.length + 1 := by
    rw [hmax, hent]
    simp [lruAnnot_length, hn]
  rw [lru_set_overflow c fr.1 fr.2 hfresh hover]
  simp only [hent, hclock]
  rw [List.cons_append, List.cons_append]
  rw [lruEvictOldest_second (a1, av, n) (b1, bv, 1)
      (lruAnnot rest 2 ++ [(fr.1, fr.2, n + 1)]) (by simp; omega) ?_ hab]
  · rw [List.map_cons, List.map_append, lruAnnot_keys]
    rfl
  · intro x hx
    rcases List.mem_append.mp hx with h2 | h3
    · have := lruAnnot_tick_ge rest 2 x h2
      simp only
      omega
    · rcases List.mem_singleton.mp h3 with rfl
      simp only
      omega

/-- C7: (1) inserting `max_size + 1` distinct keys into a fresh cache
leaves exactly `max_size` entries, the evicted key being the first (the
least-recently-touched); (2) a `get` refreshes recency: after filling to
capacity, getting the first key makes the *second* key the eviction victim
of the next insertion; (3) a `set` of an existing key refreshes recency the
same way. -/
theorem lru_eviction (V : Type) :
    (∀ (max_size : Nat) (kvs : List (String × V)),
      (kvs.map Prod.fst).Nodup → kvs.length = max_size + 1 →
      ((LRUCache.init V max_size).setAll kvs).entries.length = max_size ∧
      ((LRUCache.init V max_size).setAll kvs).entries.map (fun e => e.1) =
        (kvs.map Prod.fst).tail) ∧
    (∀ (a b fr : String × V) (rest : List (String × V)),
      ((a :: b :: rest).map Prod.fst ++ [fr.1]).Nodup →
      (((((LRUCache.init V (rest.length + 2)).setAll (a :: b :: rest)).get a.1).2).set
          fr.1 fr.2).entries.map (fun e => e.1) =
        a.1 :: rest.map Prod.fst ++ [fr.1]) ∧
    (∀ (a b fr : String × V) (v2 : V) (rest : List (String × V)),
      ((a :: b :: rest).map Prod.fst ++ [fr.1]).Nodup →
      ((((LRUCache.init V (rest.length + 2)).setAll (a :: b :: rest)).set a.1 v2).set
          fr.1 fr.2).entries.map (fun e => e.1) =
        a.1 :: rest.map Prod.fst ++ [fr.1]) := by
  refine ⟨?_, ?_, ?_⟩
  · -- part 1: pure insertions evict the first key
    intro m kvs hnodup hlen
    rcases List.eq_nil_or_concat kvs with rfl | ⟨front, lkv, rfl⟩
    · simp at hlen
    rw [List.concat_eq_append] at hlen hnodup ⊢
    have hflen : front.length = m := by
      rw [List.length_append, List.length_singleton] at hlen
      omega
    rw [List.map_append] at hnodup
    have hnd := List.nodup_append.mp hnodup
    have hinit := lru_setAll_init front m hnd.1 (le_of_eq hflen)
    have he1 := hinit.1
    have hc1 := hinit.2.1
    have hm1 := hinit.2.2
    have hsplit : (LRUCache.init V m).setAll (front ++ [lkv]) =
        ((LRUCache.init V m).setAll front).set lkv.1 lkv.2 := by
      unfold LRUCache.setAll
      rw [List.foldl_append]
      rfl
    rw [hsplit]
    have hfresh : ∀ e ∈ ((LRUCache.init V m).setAll front).entries, e.1 ≠ lkv.1 := by
      intro e he
      rw [he1] at he
      have hmem : e.1 ∈ front.map Prod.fst := by
        rw [← lruAnnot_keys front 0]
        exact List.mem_map_of_mem _ he
      intro hcontra
      exact hnd.2.2 hmem (by rw [hcontra]; simp)
    have hover : ((LRUCache.init V m).setAll front).max_size <
        ((LRUCache.init V m).setAll front).entries.length + 1 := by
      rw [hm1, he1, lruAnnot_length, hflen]
      omega
    rw [lru_set_overflow _ lkv.1 lkv.2 hfresh hover]
    simp only [he1, hc1]
    have hev : lruEvictOldest (lruAnnot front 0 ++ [(lkv.1, lkv.2, front.length)]) =
        (lruAnnot front 0 ++ [(lkv.1, lkv.2, front.length)]).tail := by
      cases hf : front with
      | nil =>
        simp only [lruAnnot, List.nil_append]
        exact lruEvictOldest_head _ _ (by intro x hx; cases hx)
      | cons f fs =>
        simp only [lruAnnot, List.cons_append, List.tail_cons]
        exact lruEvictOldest_head _ _ (fun x _ => Nat.not_lt_zero _)
    rw [hev]
    constructor
    · rw [List.length_tail, List.length_append, lruAnnot_length,
        List.length_singleton, hflen]
      omega
    · rw [List.map_tail, List.map_append, lruAnnot_keys]
      simp
  · -- part 2: a get refreshes recency, shifting the eviction victim
    intro a b fr rest hnodup
    have hnd := List.nodup_append.mp hnodup
    have h1 := hnd.1
    rw [List.map_cons, List.map_cons, List.nodup_cons, List.nodup_cons] at h1
    have hdisj := hnd.2.2
    have hinit := lru_setAll_init (a :: b :: rest) (rest.length + 2) hnd.1
      (by simp only [List.length_cons]; omega)
    have he1 : ((LRUCache.init V (rest.length + 2)).setAll (a :: b :: rest)).entries =
        (a.1, a.2, 0) :: (b.1, b.2, 1) :: lruAnnot rest 2 := by
      rw [hinit.1]
      simp [lruAnnot]
    have hc1 : ((LRUCache.init V (rest.length + 2)).setAll (a :: b :: rest)).clock =
        rest.length + 2 := by
      rw [hinit.2.1]
      simp only [List.length_cons]
    have hm1 := hinit.2.2
    have hget := lru_get_hit
      ((LRUCache.init V (rest.length + 2)).setAll (a :: b :: rest)) a.1
      (a.1, a.2, 0)
      (by rw [he1]; exact List.find?_cons_of_pos _ (by simp))
    rw [hget]
    have hba : b.1 ≠ a.1 := fun hcontra => (h1.1 (by simp [hcontra])).elim
    have htouch : lruTouch
        ((LRUCache.init V (rest.length + 2)).setAll (a :: b :: rest)).entries a.1
        ((LRUCache.init V (rest.length + 2)).setAll (a :: b :: rest)).clock =
        (a.1, a.2, rest.length + 2) :: (b.1, b.2, 1) :: lruAnnot rest 2 := by
      rw [he1, hc1]
      have hrest : lruTouch (lruAnnot rest 2) a.1 (rest.length + 2) =
          lruAnnot rest 2 := by
        apply lruTouch_not_mem
        intro e he hcontra
        apply h1.1
        rw [← hcontra]
        apply List.mem_cons_of_mem
        rw [← lruAnnot_keys rest 2]
        exact List.mem_map_of_mem _ he
      unfold lruTouch at hrest ⊢
      simp only [List.map_cons, hrest]
      simp [hba]
    apply lru_evict_after_refresh a.1 a.2 b.1 b.2 rest fr _ (rest.length + 2) rfl
    · simp only [htouch]
    · simp only [hc1]
    · simp only [hm1]
    · exact fun hcontra => (h1.1 (by simp [hcontra])).elim
    · intro hcontra
      exact hdisj (show a.1 ∈ List.map Prod.fst (a :: b :: rest) by simp)
        (show a.1 ∈ [fr.1] by simp [hcontra])
    · intro hcontra
      exact hdisj (show b.1 ∈ List.map Prod.fst (a :: b :: rest) by simp)
        (show b.1 ∈ [fr.1] by simp [hcontra])
    · intro hmem
      have hmem2 : fr.1 ∈ List.map Prod.fst (a :: b :: rest) := by
        simp only [List.map_cons, List.mem_cons]
        right; right
        exact hmem
      exact hdisj hmem2 (by simp)
  · -- part 3: a set of an existing key refreshes recency the same way
    intro a b fr v2 rest hnodup
    have hnd := List.nodup_append.mp hnodup
    have h1 := hnd.1
    rw [List.map_cons, List.map_cons, List.nodup_cons, List.nodup_cons] at h1
    have hdisj := hnd.2.2
    have hinit := lru_setAll_init (a :: b :: rest) (rest.length + 2) hnd.1
      (by simp only [List.length_cons]; omega)
    have he1 : ((LRUCache.init V (rest.length + 2)).setAll (a :: b :: rest)).entries =
        (a.1, a.2, 0) :: (b.1, b.2, 1) :: lruAnnot rest 2 := by
      rw [hinit.1]
      simp [lruAnnot]
    have hc1 : ((LRUCache.init V (rest.length + 2)).setAll (a :: b :: rest)).clock =
        rest.length + 2 := by
      rw [hinit.2.1]
      simp only [List.length_cons]
    have hm1 := hinit.2.2
    have hba : b.1 ≠ a.1 := fun hcontra => (h1.1 (by simp [hcontra])).elim
    have hupd := lru_set_update
      ((LRUCache.init V (rest.length + 2)).setAll (a :: b :: rest)) a.1 v2
      (by rw [he1]; simp) (by rw [he1, hm1]; simp [lruAnnot_length])
    rw [hupd]
    have hmap : ((LRUCache.init V (rest.length + 2)).setAll (a :: b :: rest)).entries.map
        (fun e => if e.1 = a.1 then
          (a.1, v2, ((LRUCache.init V (rest.length + 2)).setAll (a :: b :: rest)).clock)
          else e) =
        (a.1, v2, rest.length + 2) :: (b.1, b.2, 1) :: lruAnnot rest 2 := by
      rw [he1, hc1]
      have hrest : (lruAnnot rest 2).map
          (fun e => if e.1 = a.1 then (a.1, v2, rest.length + 2) else e) =
          lruAnnot rest 2 := by
        apply lruUpdate_not_mem
        intro e he hcontra
        apply h1.1
        rw [← hcontra]
        apply List.mem_cons_of_mem
        rw [← lruAnnot_keys rest 2]
        exact List.mem_map_of_mem _ he
      simp only [List.map_cons, hrest]
      simp [hba]
    apply lru_evict_after_refresh a.1 v2 b.1 b.2 rest fr _ (rest.length + 2) rfl
    · simp only [hmap]
    · simp only [hc1]
    · simp only [hm1]
    · exact fun hcontra => (h1.1 (by simp [hcontra])).elim
    · intro hcontra
      exact hdisj (show a.1 ∈ List.map Prod.fst (a :: b :: rest) by simp)
        (show a.1 ∈ [fr.1] by simp [hcontra])
    · intro hcontra
      exact hdisj (show b.1 ∈ List.map Prod.fst (a :: b :: rest) by simp)
        (show b.1 ∈ [fr.1] by simp [hcontra])
    · intro hmem
      have hmem2 : fr.1 ∈ List.map Prod.fst (a :: b :: rest) := by
        simp only [List.map_cons, List.mem_cons]
        right; right
        exact hmem
      exact hdisj hmem2 (by simp)

/-- C7 (witness): a capacity-2 cache; inserting the three distinct keys
"a", "b", "c" leaves ["b", "c"] (first key evicted); with a `get` of "a"
(or a re-`set` of "a") after filling to capacity, inserting "c" evicts "b"
instead, leaving ["a", "c"]. -/
theorem lru_eviction_witness :
    (([("a", 1), ("b", 2), ("c", 3)] : List (String × ℕ)).map Prod.fst).Nodup ∧
    ((LRUCache.init ℕ 2).setAll
      [("a", 1), ("b", 2), ("c", 3)]).entries.length = 2 ∧
    ((LRUCache.init ℕ 2).setAll
      [("a", 1), ("b", 2), ("c", 3)]).entries.map (fun e => e.1) = ["b", "c"] ∧
    (((((LRUCache.init ℕ 2).setAll [("a", 1), ("b", 2)]).get "a").2).set
      "c" 3).entries.map (fun e => e.1) = ["a", "c"] ∧
    ((((LRUCache.init ℕ 2).setAll [("a", 1), ("b", 2)]).set "a" 9).set
      "c" 3).entries.map (fun e => e.1) = ["a", "c"] := by
  have hnd3 : (([("a", 1), ("b", 2), ("c", 3)] : List (String × ℕ)).map
      Prod.fst).Nodup := by decide
  have hnd2 : ((([("a", 1), ("b", 2)] : List (String × ℕ)).map Prod.fst) ++
      [(("c", 3) : String × ℕ).1]).Nodup := by decide
  have h1 := (lru_eviction ℕ).1 2 [("a", 1), ("b", 2), ("c", 3)] hnd3 rfl
  have h2 := (lru_eviction ℕ).2.1 ("a", 1) ("b", 2) ("c", 3) [] hnd2
  have h3 := (lru_eviction ℕ).2.2 ("a", 1) ("b", 2) ("c", 3) 9 [] hnd2
  exact ⟨hnd3, h1.1, h1.2, h2, h3⟩

/-! ## `src/models/volatility.py` -/

/-- The state of `VolatilityCalculator`.  `volatility_estimates` is the
dict keyed by window size (total function here; only keys in
`window_sizes` are ever read, all initialized to `0.0`), `returns` the
per-window return buffers. -/
structure VolatilityState where
  window_sizes : List Nat
  price_history : List (String × PyVal)
  returns : Nat → List PyVal
  volatility_estimates : Nat → PyVal
  ewma_lambda : PyVal
  ewma_variance : PyVal

/-- `VolatilityCalculator.__init__` with the default windows. -/
def VolatilityCalculator.init : VolatilityState :=
  { window_sizes := [10, 30, 60, 120]
    price_history := []
    returns := fun _ => []
    volatility_estimates := fun _ => PyVal.fin 0
    ewma_lambda := PyVal.fin 0.94
    ewma_variance := PyVal.fin 0 }

/-- Python `min` over a list of ints: `ValueError` on an empty list. -/
def pyMinNat : List Nat → Except PyErr Nat
  | [] => Except.error PyErr.valueError
  | x :: xs => Except.ok (xs.foldl Nat.min x)

/-- `VolatilityCalculator.get_volatility(method)`: builds the results dict
(as an association list in insertion order): per-window `std_<w>` entries
for `std`/`all`, the EWMA-derived `ewma` and `current` entries for
`ewma`/`all`, and a `blended` average when any entry exists. -/
def get_volatility (psqrt : ℚ → ℚ) (vs : VolatilityState) (method : String) :
    Except PyErr (List (String × PyVal)) := do
  let results1 : List (String × PyVal) :=
    if method = "std" ∨ method = "all" then
      vs.window_sizes.map (fun w =>
        ("std_" ++ toString w, vs.volatility_estimates w))
    else []
  let results2 ←
    if method = "ewma" ∨ method = "all" then do
      let shortest ← pyMinNat vs.window_sizes
      let annSq ← PyVal.div (PyVal.fin (365 * (24 * 60))) (PyVal.fin shortest)
      let annualization_factor ← PyVal.sqrt psqrt annSq
      let root ← PyVal.sqrt psqrt vs.ewma_variance
      let ewma_vol := PyVal.mul (PyVal.mul root annualization_factor)
        (PyVal.fin 100)
      pure (results1 ++ [("ewma", ewma_vol), ("current", ewma_vol)])
    else pure results1
  if 0 < results2.length then
    pure (results2 ++ [("blended",
      PyVal.divCore (PyVal.listSum (results2.map Prod.snd))
        (PyVal.fin results2.length))])
  else
    pure results2

/-- `VolatilityCalculator.get_current_volatility()`:
`self.get_volatility("ewma").get("current", 2.0)`. -/
def get_current_volatility (psqrt : ℚ → ℚ) (vs : VolatilityState) :
    Except PyErr PyVal := do
  let volatility ← get_volatility psqrt vs "ewma"
  pure (((volatility.find? (fun p => p.1 == "current")).map Prod.snd).getD
    (PyVal.fin 2))

/-- C2: on a freshly constructed `VolatilityCalculator` (no price history,
EWMA variance zero), `get_current_volatility()` returns `0.0` — not the
documented default `2.0`: `get_volatility("ewma")` always populates the
`"current"` key (here `sqrt(0) · annualization · 100 = 0`), so the
`.get("current", 2.0)` fallback is dead code.  Stated for every abstract
square root with `psqrt 0 = 0` (true of the genuine square root). -/
theorem get_current_volatility_init_zero (psqrt : ℚ → ℚ)
    (h0 : psqrt 0 = 0) :
    get_current_volatility psqrt VolatilityCalculator.init =
      Except.ok (PyVal.fin 0) := by
  norm_num [get_current_volatility, get_volatility, VolatilityCalculator.init,
    pyMinNat, PyVal.div, PyVal.divCore, PyVal.sqrt, PyVal.mul, PyVal.listSum,
    PyVal.add, Except.bind, bind, h0, List.find?]
  norm_num [pure, Except.pure, PyVal.divCore, PyVal.listSum, PyVal.add,
    List.find?]
  simp

/-- C2 (witness): the theorem applied at the concrete square-root function
that is zero everywhere (which satisfies `psqrt 0 = 0`). -/
theorem get_current_volatility_init_zero_witness :
    ((fun _ => (0 : ℚ)) 0 = 0) ∧
    get_current_volatility (fun _ => (0 : ℚ)) VolatilityCalculator.init =
      Except.ok (PyVal.fin 0) :=
  ⟨rfl, get_current_volatility_init_zero (fun _ => (0 : ℚ)) rfl⟩

/-! ## `src/models/slippage.py` -/

/-- The state of `SlippageModel`: bounded histories of
`(quantity, buy_impact, sell_impact)` triples, 5-component feature
vectors `(spread_bps, depth_imbalance, relative_size_bids,
relative_size_asks, quantity)`, and observed slippage values. -/
structure SlippageState where
  history_size : Nat
  price_impact_history : List (PyVal × PyVal × PyVal)
  features_history : List (PyVal × PyVal × PyVal × PyVal × PyVal)
  slippage_history : List PyVal

/-- `SlippageModel.__init__` with the default history size. -/
def SlippageModel.init : SlippageState :=
  { history_size := 100, price_impact_history := []
    features_history := [], slippage_history := [] }

/-- One step of the book walk in `_calculate_theoretical_price_impact`:
the accumulator is `(weighted_avg_price, remaining_quantity)`; once
`remaining <= 0` the loop breaks (the accumulator no longer changes, so
skipping the remaining levels is equivalent). -/
def walkStep (acc : PyVal × PyVal) (level : OrderBookLevel) : PyVal × PyVal :=
  if PyVal.le acc.2 (PyVal.fin 0) then acc
  else
    let executable_quantity := PyVal.pymin acc.2 (PyVal.fin level.quantity)
    (PyVal.add acc.1 (PyVal.mul executable_quantity (PyVal.fin level.price)),
     PyVal.sub acc.2 executable_quantity)

/-- `SlippageModel._calculate_theoretical_price_impact(orderbook,
quantity, is_buy)`: walk the relevant side, price the unfilled remainder
at the last level (or the base price when the side is empty) with a 0.5%
worst-case markup, and return the impact percentage.  The division by the
base price raises `ZeroDivisionError` when the base price is zero (empty
bid side on a sell). -/
def theoretical_price_impact (ob : OrderBook) (quantity : PyVal)
    (is_buy : Bool) : Except PyErr PyVal :=
  if PyVal.le quantity (PyVal.fin 0) then Except.ok (PyVal.fin 0)
  else
    let base_price := if is_buy then ob.best_ask else ob.best_bid
    let levels := if is_buy then ob.asks else ob.bids
    let walk := levels.foldl walkStep (PyVal.fin 0, quantity)
    let weighted_avg_price :=
      if PyVal.lt (PyVal.fin 0) walk.2 then
        let last_price := match levels.getLast? with
          | some l => PyVal.fin l.price
          | none => base_price
        let estimated_price := PyVal.mul last_price
          (if is_buy then PyVal.fin (1 + 0.005) else PyVal.fin (1 - 0.005))
        PyVal.add walk.1 (PyVal.mul walk.2 estimated_price)
      else walk.1
    do
      let avg_price ← PyVal.div weighted_avg_price quantity
      let ratio ← PyVal.div avg_price base_price
      if is_buy then
        Except.ok (PyVal.mul (PyVal.sub ratio (PyVal.fin 1)) (PyVal.fin 100))
      else
        Except.ok (PyVal.mul (PyVal.sub (PyVal.fin 1) ratio) (PyVal.fin 100))

/-- `SlippageModel._extract_features(orderbook, quantity)`.  The spread
over mid-price division is unguarded in the source and can raise. -/
def extract_features (ob : OrderBook) (quantity : PyVal) :
    Except PyErr (PyVal × PyVal × PyVal × PyVal × PyVal) := do
  let spread_bps ← PyVal.div ob.spread ob.mid_price
  let spread_bps := PyVal.mul spread_bps (PyVal.fin 10000)
  let bid_depth : ℚ := (ob.bids.map (fun l => l.quantity)).sum
  let ask_depth : ℚ := (ob.asks.map (fun l => l.quantity)).sum
  let depth_imbalance : ℚ :=
    if 0 < bid_depth + ask_depth
    then (bid_depth - ask_depth) / (bid_depth + ask_depth) else 0
  let relative_size_bids :=
    if 0 < bid_depth then PyVal.divCore quantity (PyVal.fin bid_depth)
    else PyVal.fin 1
  let relative_size_asks :=
    if 0 < ask_depth then PyVal.divCore quantity (PyVal.fin ask_depth)
    else PyVal.fin 1
  Except.ok (spread_bps, PyVal.fin depth_imbalance, relative_size_bids,
    relative_size_asks, quantity)

/-- `np.mean` over a list of floats: sum divided by length (callers guard
non-emptiness). -/
def pyMean (l : List PyVal) : PyVal :=
  PyVal.divCore (PyVal.listSum l) (PyVal.fin l.length)

/-- `np.std` (population standard deviation): the square root of the mean
squared deviation from the mean. -/
def pyStd (psqrt : ℚ → ℚ) (l : List PyVal) : Except PyErr PyVal :=
  let m := pyMean l
  PyVal.sqrt psqrt
    (pyMean (l.map (fun x => PyVal.mul (PyVal.sub x m) (PyVal.sub x m))))

/-- `SlippageModel.predict_slippage_linear(orderbook, quantity, is_buy)`:
theoretical walk below 10 history points; otherwise a weight vector dotted
with history-normalized features (zero stds replaced by 1), blended with
the theoretical figure at `alpha = 0.7`, floored at zero. -/
def predict_slippage_linear (psqrt : ℚ → ℚ) (st : SlippageState)
    (ob : OrderBook) (quantity : PyVal) (is_buy : Bool) :
    Except PyErr PyVal :=
  if st.price_impact_history.length < 10 then
    theoretical_price_impact ob quantity is_buy
  else do
    let features ← extract_features ob quantity
    let normalized_features ←
      match st.features_history with
      | [] => Except.ok features
      | fh => do
        let col := fun (pick : (PyVal × PyVal × PyVal × PyVal × PyVal) → PyVal) =>
          fh.map pick
        let norm := fun (f : PyVal)
            (pick : (PyVal × PyVal × PyVal × PyVal × PyVal) → PyVal) => do
          let mean := pyMean (col pick)
          let std ← pyStd psqrt (col pick)
          let std := if std = PyVal.fin 0 then PyVal.fin 1 else std
          Except.ok (PyVal.divCore (PyVal.sub f mean) std)
        let n1 ← norm features.1 (fun f => f.1)
        let n2 ← norm features.2.1 (fun f => f.2.1)
        let n3 ← norm features.2.2.1 (fun f => f.2.2.1)
        let n4 ← norm features.2.2.2.1 (fun f => f.2.2.2.1)
        let n5 ← norm features.2.2.2.2 (fun f => f.2.2.2.2)
        Except.ok (n1, n2, n3, n4, n5)
    let base_slippage :=
      PyVal.add (PyVal.add (PyVal.add (PyVal.add
        (PyVal.mul (PyVal.fin 0.2) normalized_features.1)
        (PyVal.mul (PyVal.fin 0.3) normalized_features.2.1))
        (PyVal.mul (PyVal.fin 0.4) normalized_features.2.2.1))
        (PyVal.mul (PyVal.fin 0.3) normalized_features.2.2.2.1))
        (PyVal.mul (PyVal.fin 0.1) normalized_features.2.2.2.2)
    let theoretical_impact ← theoretical_price_impact ob quantity is_buy
    let predicted_slippage :=
      PyVal.add (PyVal.mul (PyVal.fin 0.7) base_slippage)
        (PyVal.mul (PyVal.fin (1 - 0.7)) theoretical_impact)
    Except.ok (PyVal.pymax (PyVal.fin 0) predicted_slippage)

/-- The z-score dict lookup `{0.5: 0, 0.75: 0.674, 0.9: 1.282,
0.95: 1.645, 0.99: 2.326}.get(q, 0)` of `predict_slippage_quantile`: a
five-way key equality test with default 0. -/
def zLookup (q : ℚ) : ℚ :=
  if q = 0.5 then 0
  else if q = 0.75 then 0.674
  else if q = 0.9 then 1.282
  else if q = 0.95 then 1.645
  else if q = 0.99 then 2.326
  else 0

/-- The z-score selection of `predict_slippage_quantile`: table lookup,
then (for quantiles not in the table) linear interpolation between the
surrounding keys, clamped to 0 below 0.5 and to 2.326 above 0.99.  The
source finds the insertion index by scanning the sorted key list with a
`while keys[idx] < quantile` loop; over the sorted keys that index equals
the number of keys strictly below the quantile. -/
def zScore (quantile : ℚ) : ℚ :=
  let z0 := zLookup quantile
  if z0 = 0 ∧ quantile ≠ 0.5 then
    let keys : List ℚ := [0.5, 0.75, 0.9, 0.95, 0.99]
    let idx := (keys.filter (fun k => k < quantile)).length
    if idx = 0 then 0
    else if idx = keys.length then 2.326
    else
      let lower_key := keys.getD (idx - 1) 0
      let upper_key := keys.getD idx 0
      let lower_z := zLookup lower_key
      let upper_z := zLookup upper_key
      lower_z + (upper_z - lower_z) * (quantile - lower_key) /
        (upper_key - lower_key)
  else z0

/-- `SlippageModel.predict_slippage_quantile(orderbook, quantity, is_buy,
quantile)`. -/
def predict_slippage_quantile (psqrt : ℚ → ℚ) (st : SlippageState)
    (ob : OrderBook) (quantity : PyVal) (is_buy : Bool) (quantile : ℚ) :
    Except PyErr PyVal := do
  let base_prediction ← predict_slippage_linear psqrt st ob quantity is_buy
  if st.price_impact_history.length < 20 then
    if 0.5 < quantile then
      Except.ok (PyVal.mul base_prediction
        (PyVal.fin (1 + (quantile - 0.5) * 2)))
    else
      Except.ok base_prediction
  else
    let historical_impacts := st.price_impact_history.map
      (fun h => if is_buy then h.2.1 else h.2.2)
    if historical_impacts.isEmpty then Except.ok base_prediction
    else do
      let mean_impact := pyMean historical_impacts
      let std_impact ← pyStd psqrt historical_impacts
      let quantile_estimate := PyVal.add mean_impact
        (PyVal.mul (PyVal.fin (zScore quantile)) std_impact)
      let predicted_slippage :=
        PyVal.add (PyVal.mul (PyVal.fin 0.6) quantile_estimate)
          (PyVal.mul (PyVal.fin (1 - 0.6)) base_prediction)
      Except.ok (PyVal.pymax (PyVal.fin 0) predicted_slippage)

/-- `max(0.0, x)` is non-negative for every float `x` (including `nan`,
which CPython `max` maps to the first argument `0.0`). -/
theorem pymax_zero_nonneg (x : PyVal) :
    PyVal.le (PyVal.fin 0) (PyVal.pymax (PyVal.fin 0) x) = true := by
  cases x with
  | fin q =>
    simp only [PyVal.pymax, PyVal.lt, decide_eq_true_eq]
    by_cases h : (0 : ℚ) < q
    · rw [if_pos h]
      simp only [PyVal.le, decide_eq_true_eq]
      linarith
    · rw [if_neg h]
      simp [PyVal.le]
  | pinf => simp [PyVal.pymax, PyVal.lt, PyVal.le]
  | ninf => simp [PyVal.pymax, PyVal.lt, PyVal.le]
  | nan => simp [PyVal.pymax, PyVal.lt, PyVal.le]

/-- The book walk over levels priced at or above `base` (ask side of a
sorted book), with non-negative level quantities, keeps the accumulator
finite, the remaining quantity non-negative, and the filled value at
least `base` per filled unit. -/
theorem walkStep_fold_ge (levels : List OrderBookLevel) (base : ℚ)
    (hb : 0 ≤ base)
    (hlev : ∀ l ∈ levels, base ≤ l.price ∧ 0 ≤ l.quantity) :
    ∀ w r C, 0 ≤ r → base * (C - r) ≤ w →
    ∃ w2 r2, levels.foldl walkStep (PyVal.fin w, PyVal.fin r) =
        (PyVal.fin w2, PyVal.fin r2) ∧ 0 ≤ r2 ∧ base * (C - r2) ≤ w2 := by
  induction levels with
  | nil => exact fun w r C h1 h2 => ⟨w, r, rfl, h1, h2⟩
  | cons l ls ih =>
    intro w r C h1 h2
    rw [List.foldl_cons]
    unfold walkStep
    simp only [PyVal.le, PyVal.pymin, PyVal.lt, PyVal.add, PyVal.mul,
      PyVal.sub, PyVal.neg, decide_eq_true_eq]
    have hl := hlev l (List.mem_cons_self l ls)
    have hls : ∀ x ∈ ls, base ≤ x.price ∧ 0 ≤ x.quantity :=
      fun x hx => hlev x (List.mem_cons_of_mem l hx)
    by_cases hz : r ≤ 0
    · rw [if_pos hz]
      exact ih hls w r C h1 h2
    · rw [if_neg hz]
      by_cases hlr : l.quantity < r
      · rw [if_pos hlr]
        refine ih hls (w + l.quantity * l.price) (r + -l.quantity) C
          (by linarith) ?_
        have : base * l.quantity ≤ l.price * l.quantity := by
          apply mul_le_mul_of_nonneg_right hl.1 hl.2
        nlinarith [hl.1, hl.2]
      · rw [if_neg hlr]
        refine ih hls (w + r * l.price) (r + -r) C (by linarith) ?_
        have hr0 : 0 < r := lt_of_not_le hz
        have : base * r ≤ l.price * r := by
          apply mul_le_mul_of_nonneg_right hl.1 (le_of_lt hr0)
        nlinarith

/-- The book walk over levels priced at or below `base` (bid side of a
sorted book), with non-negative level prices and quantities: the filled
value is at most `base` per filled unit. -/
theorem walkStep_fold_le (levels : List OrderBookLevel) (base : ℚ)
    (hlev : ∀ l ∈ levels, l.price ≤ base ∧ 0 ≤ l.price ∧ 0 ≤ l.quantity) :
    ∀ w r C, 0 ≤ r → w ≤ base * (C - r) →
    ∃ w2 r2, levels.foldl walkStep (PyVal.fin w, PyVal.fin r) =
        (PyVal.fin w2, PyVal.fin r2) ∧ 0 ≤ r2 ∧ w2 ≤ base * (C - r2) := by
  induction levels with
  | nil => exact fun w r C h1 h2 => ⟨w, r, rfl, h1, h2⟩
  | cons l ls ih =>
    intro w r C h1 h2
    rw [List.foldl_cons]
    unfold walkStep
    simp only [PyVal.le, PyVal.pymin, PyVal.lt, PyVal.add, PyVal.mul,
      PyVal.sub, PyVal.neg, decide_eq_true_eq]
    have hl := hlev l (List.mem_cons_self l ls)
    have hls : ∀ x ∈ ls, x.price ≤ base ∧ 0 ≤ x.price ∧ 0 ≤ x.quantity :=
      fun x hx => hlev x (List.mem_cons_of_mem l hx)
    by_cases hz : r ≤ 0
    · rw [if_pos hz]
      exact ih hls w r C h1 h2
    · rw [if_neg hz]
      by_cases hlr : l.quantity < r
      · rw [if_pos hlr]
        refine ih hls (w + l.quantity * l.price) (r + -l.quantity) C
          (by linarith) ?_
        have : l.price * l.quantity ≤ base * l.quantity := by
          apply mul_le_mul_of_nonneg_right hl.1 hl.2.2
        nlinarith
      · rw [if_neg hlr]
        refine ih hls (w + r * l.price) (r + -r) C (by linarith) ?_
        have hr0 : 0 < r := lt_of_not_le hz
        have : l.price * r ≤ base * r := by
          apply mul_le_mul_of_nonneg_right hl.1 (le_of_lt hr0)
        nlinarith

/-- Inversion of a successful `Except` bind. -/
theorem exceptBind_ok {α β : Type} (e : Except PyErr α)
    (f : α → Except PyErr β) (b : β) (h : (e >>= f) = Except.ok b) :
    ∃ a, e = Except.ok a ∧ f a = Except.ok b := by
  cases e with
  | ok a => exact ⟨a, rfl, h⟩
  | error err => simp [Bind.bind, Except.bind] at h

/-- On a sorted ask side with non-negative levels, the theoretical price
impact of a buy of positive finite quantity is non-negative whenever it
returns at all. -/
theorem theoretical_impact_buy_nonneg (ob : OrderBook) (qv : ℚ)
    (hq : 0 < qv) (hsorted : asksSorted ob)
    (hpos : ∀ l ∈ ob.asks, 0 ≤ l.price ∧ 0 ≤ l.quantity)
    (hne : ob.asks ≠ []) :
    ∀ r, theoretical_price_impact ob (PyVal.fin qv) true = Except.ok r →
      PyVal.le (PyVal.fin 0) r = true := by
  intro r hr
  obtain ⟨a, as, hasks⟩ : ∃ a as, ob.asks = a :: as := by
    cases h : ob.asks with
    | nil => exact absurd h hne
    | cons x xs => exact ⟨x, xs, rfl⟩
  unfold theoretical_price_impact at hr
  rw [if_neg (by simp only [PyVal.le, decide_eq_true_eq]
                 exact not_le.mpr hq)] at hr
  simp only [if_pos, OrderBook.best_ask, hasks] at hr
  have hbase0 : 0 ≤ a.price := (hpos a (by rw [hasks]; exact List.mem_cons_self a as)).1
  have hlev : ∀ l ∈ ob.asks, a.price ≤ l.price ∧ 0 ≤ l.quantity := by
    intro l hl
    refine ⟨?_, (hpos l hl).2⟩
    unfold asksSorted at hsorted
    rw [hasks] at hsorted hl
    rw [List.pairwise_cons] at hsorted
    rcases List.mem_cons.mp hl with rfl | hmem
    · exact le_refl _
    · exact hsorted.1 l hmem
  obtain ⟨w2, r2, heq, hr2, hinv⟩ :=
    walkStep_fold_ge ob.asks a.price hbase0 hlev 0 qv qv hq.le
      (by simp)
  rw [hasks] at heq
  rw [heq] at hr
  have hW : ∃ w3, (if PyVal.lt (PyVal.fin 0)
        ((PyVal.fin w2, PyVal.fin r2) : PyVal × PyVal).2 then
        let last_price := match (a :: as).getLast? with
          | some l => PyVal.fin l.price
          | none => PyVal.fin a.price
        let estimated_price := PyVal.mul last_price (PyVal.fin (1 + 0.005))
        PyVal.add ((PyVal.fin w2, PyVal.fin r2) : PyVal × PyVal).1
          (PyVal.mul ((PyVal.fin w2, PyVal.fin r2) : PyVal × PyVal).2
            estimated_price)
      else ((PyVal.fin w2, PyVal.fin r2) : PyVal × PyVal).1) = PyVal.fin w3 ∧
      a.price * qv ≤ w3 := by
    by_cases hpos2 : 0 < r2
    · rw [if_pos (by simp [PyVal.lt, hpos2])]
      cases hlast : (a :: as).getLast? with
      | none => simp at hlast
      | some last =>
        have hlmem : last ∈ ob.asks := by
          rw [hasks]; exact List.mem_of_getLast?_eq_some hlast
        have hlast1 := (hlev last hlmem).1
        refine ⟨w2 + r2 * (last.price * (1 + 0.005)), ?_, ?_⟩
        · simp [PyVal.mul, PyVal.add]
        · nlinarith [hinv, hbase0, hlast1, hpos2.le]
    · have hr20 : r2 = 0 := le_antisymm (le_of_not_lt hpos2) hr2
      rw [if_neg (by simp [PyVal.lt, hpos2])]
      refine ⟨w2, rfl, ?_⟩
      rw [hr20] at hinv
      simpa using hinv
  obtain ⟨w3, hw3, hge⟩ := hW
  rw [hw3] at hr
  rw [show PyVal.div (PyVal.fin w3) (PyVal.fin qv) =
      Except.ok (PyVal.fin (w3 / qv)) by
    simp [PyVal.div, PyVal.divCore, hq.ne']] at hr
  simp only [Bind.bind, Except.bind] at hr
  by_cases hb0 : a.price = 0
  · rw [show PyVal.div (PyVal.fin (w3 / qv)) (PyVal.fin a.price) =
        Except.error PyErr.zeroDivision by simp [PyVal.div, hb0]] at hr
    cases hr
  · rw [show PyVal.div (PyVal.fin (w3 / qv)) (PyVal.fin a.price) =
        Except.ok (PyVal.fin (w3 / qv / a.price)) by
      simp [PyVal.div, PyVal.divCore, hb0]] at hr
    simp only [PyVal.sub, PyVal.neg, PyVal.add, PyVal.mul] at hr
    have hbpos : 0 < a.price := lt_of_le_of_ne hbase0 (Ne.symm hb0)
    have hratio : 1 ≤ w3 / qv / a.price := by
      have h1 : a.price ≤ w3 / qv := (le_div_iff hq).mpr (by linarith [hge])
      exact (one_le_div hbpos).mpr h1
    injection hr with h
    subst h
    simp only [PyVal.le, decide_eq_true_eq]
    nlinarith [hratio]

/-- On a sorted bid side with non-negative levels, the theoretical price
impact of a sell of positive finite quantity is non-negative whenever it
returns at all. -/
theorem theoretical_impact_sell_nonneg (ob : OrderBook) (qv : ℚ)
    (hq : 0 < qv) (hsorted : bidsSorted ob)
    (hpos : ∀ l ∈ ob.bids, 0 ≤ l.price ∧ 0 ≤ l.quantity)
    (hne : ob.bids ≠ []) :
    ∀ r, theoretical_price_impact ob (PyVal.fin qv) false = Except.ok r →
      PyVal.le (PyVal.fin 0) r = true := by
  intro r hr
  obtain ⟨a, as, hbids⟩ : ∃ a as, ob.bids = a :: as := by
    cases h : ob.bids with
    | nil => exact absurd h hne
    | cons x xs => exact ⟨x, xs, rfl⟩
  unfold theoretical_price_impact at hr
  rw [if_neg (by simp only [PyVal.le, decide_eq_true_eq]
                 exact not_le.mpr hq)] at hr
  simp only [OrderBook.best_bid, hbids, Bool.false_eq_true, if_false] at hr
  have hbase0 : 0 ≤ a.price :=
    (hpos a (by rw [hbids]; exact List.mem_cons_self a as)).1
  have hlev : ∀ l ∈ ob.bids, l.price ≤ a.price ∧ 0 ≤ l.price ∧
      0 ≤ l.quantity := by
    intro l hl
    refine ⟨?_, (hpos l hl).1, (hpos l hl).2⟩
    unfold bidsSorted at hsorted
    rw [hbids] at hsorted hl
    rw [List.pairwise_cons] at hsorted
    rcases List.mem_cons.mp hl with rfl | hmem
    · exact le_refl _
    · exact hsorted.1 l hmem
  obtain ⟨w2, r2, heq, hr2, hinv⟩ :=
    walkStep_fold_le ob.bids a.price hlev 0 qv qv hq.le (by simp)
  rw [hbids] at heq
  rw [heq] at hr
  have hW : ∃ w3, (if PyVal.lt (PyVal.fin 0)
        ((PyVal.fin w2, PyVal.fin r2) : PyVal × PyVal).2 then
        let last_price := match (a :: as).getLast? with
          | some l => PyVal.fin l.price
          | none => PyVal.fin a.price
        let estimated_price := PyVal.mul last_price (PyVal.fin (1 - 0.005))
        PyVal.add ((PyVal.fin w2, PyVal.fin r2) : PyVal × PyVal).1
          (PyVal.mul ((PyVal.fin w2, PyVal.fin r2) : PyVal × PyVal).2
            estimated_price)
      else ((PyVal.fin w2, PyVal.fin r2) : PyVal × PyVal).1) = PyVal.fin w3 ∧
      w3 ≤ a.price * qv := by
    by_cases hpos2 : 0 < r2
    · rw [if_pos (by simp [PyVal.lt, hpos2])]
      cases hlast : (a :: as).getLast? with
      | none => simp at hlast
      | some last =>
        have hlmem : last ∈ ob.bids := by
          rw [hbids]; exact List.mem_of_getLast?_eq_some hlast
        have hlast1 := (hlev last hlmem).1
        have hlast0 := (hlev last hlmem).2.1
        refine ⟨w2 + r2 * (last.price * (1 - 0.005)), ?_, ?_⟩
        · simp [PyVal.mul, PyVal.add]
        · nlinarith [hinv, hlast1, hlast0, hpos2.le]
    · have hr20 : r2 = 0 := le_antisymm (le_of_not_lt hpos2) hr2
      rw [if_neg (by simp [PyVal.lt, hpos2])]
      refine ⟨w2, rfl, ?_⟩
      rw [hr20] at hinv
      simpa using hinv
  obtain ⟨w3, hw3, hle3⟩ := hW
  rw [hw3] at hr
  rw [show PyVal.div (PyVal.fin w3) (PyVal.fin qv) =
      Except.ok (PyVal.fin (w3 / qv)) by
    simp [PyVal.div, PyVal.divCore, hq.ne']] at hr
  simp only [Bind.bind, Except.bind] at hr
  by_cases hb0 : a.price = 0
  · rw [show PyVal.div (PyVal.fin (w3 / qv)) (PyVal.fin a.price) =
        Except.error PyErr.zeroDivision by simp [PyVal.div, hb0]] at hr
    cases hr
  · rw [show PyVal.div (PyVal.fin (w3 / qv)) (PyVal.fin a.price) =
        Except.ok (PyVal.fin (w3 / qv / a.price)) by
      simp [PyVal.div, PyVal.divCore, hb0]] at hr
    simp only [PyVal.sub, PyVal.neg, PyVal.add, PyVal.mul] at hr
    have hbpos : 0 < a.price := lt_of_le_of_ne hbase0 (Ne.symm hb0)
    have hratio : w3 / qv / a.price ≤ 1 := by
      have h1 : w3 / qv ≤ a.price := (div_le_iff hq).mpr (by linarith [hle3])
      exact (div_le_one hbpos).mpr h1
    injection hr with h
    subst h
    simp only [PyVal.le, decide_eq_true_eq]
    nlinarith [hratio]

/-- The z-score map as the specification words it: the table value at the
five listed quantiles, linear interpolation between adjacent table keys,
clamped to the extreme table values outside `[0.5, 0.99]`.  Written from
the spec, to be compared with `zScore`. -/
def zQuantileClaim (q : ℚ) : ℚ :=
  if q ≤ 0.5 then 0
  else if q ≤ 0.75 then 0 + (0.674 - 0) * (q - 0.5) / (0.75 - 0.5)
  else if q ≤ 0.9 then 0.674 + (1.282 - 0.674) * (q - 0.75) / (0.9 - 0.75)
  else if q ≤ 0.95 then 1.282 + (1.645 - 1.282) * (q - 0.9) / (0.95 - 0.9)
  else if q ≤ 0.99 then 1.645 + (2.326 - 1.645) * (q - 0.95) / (0.99 - 0.95)
  else 2.326

/-- `zLookup` at a non-key quantile falls through to the default 0. -/
theorem zLookup_of_ne (q : ℚ) (h1 : q ≠ 0.5) (h2 : q ≠ 0.75) (h3 : q ≠ 0.9)
    (h4 : q ≠ 0.95) (h5 : q ≠ 0.99) : zLookup q = 0 := by
  unfold zLookup
  rw [if_neg h1, if_neg h2, if_neg h3, if_neg h4, if_neg h5]

/-- The source's z-score selection agrees with the specification's
table-with-linear-interpolation description everywhere. -/
theorem zScore_eq_zQuantileClaim (q : ℚ) : zScore q = zQuantileClaim q := by
  rcases lt_trichotomy q 0.5 with h05 | h05 | h05
  · simp only [zScore, zQuantileClaim]
    rw [zLookup_of_ne q (ne_of_lt h05) (ne_of_lt (by linarith))
      (ne_of_lt (by linarith)) (ne_of_lt (by linarith)) (ne_of_lt (by linarith))]
    rw [if_pos (show (0 : ℚ) = 0 ∧ q ≠ 0.5 from ⟨rfl, ne_of_lt h05⟩)]
    simp only [show (decide ((0.5 : ℚ) < q)) = false from
        decide_eq_false (by linarith),
      show (decide ((0.75 : ℚ) < q)) = false from decide_eq_false (by linarith),
      show (decide ((0.9 : ℚ) < q)) = false from decide_eq_false (by linarith),
      show (decide ((0.95 : ℚ) < q)) = false from decide_eq_false (by linarith),
      show (decide ((0.99 : ℚ) < q)) = false from decide_eq_false (by linarith),
      List.filter]
    rw [if_pos (show q ≤ 0.5 from le_of_lt h05)]
    norm_num
  · subst h05
    norm_num [zScore, zLookup, zQuantileClaim]
  · rcases lt_trichotomy q 0.75 with h75 | h75 | h75
    · simp only [zScore, zQuantileClaim]
      rw [zLookup_of_ne q (ne_of_gt h05) (ne_of_lt h75)
        (ne_of_lt (by linarith)) (ne_of_lt (by linarith))
        (ne_of_lt (by linarith))]
      rw [if_pos (show (0 : ℚ) = 0 ∧ q ≠ 0.5 from ⟨rfl, ne_of_gt h05⟩)]
      simp only [show (decide ((0.5 : ℚ) < q)) = true from decide_eq_true h05,
        show (decide ((0.75 : ℚ) < q)) = false from
          decide_eq_false (by linarith),
        show (decide ((0.9 : ℚ) < q)) = false from decide_eq_false (by linarith),
        show (decide ((0.95 : ℚ) < q)) = false from
          decide_eq_false (by linarith),
        show (decide ((0.99 : ℚ) < q)) = false from
          decide_eq_false (by linarith),
        List.filter]
      rw [if_neg (show ¬(q ≤ 0.5) from not_le.mpr h05),
        if_pos (show q ≤ 0.75 from le_of_lt h75)]
      norm_num [List.getD, zLookup]
    · subst h75
      norm_num [zScore, zLookup, zQuantileClaim]
    · rcases lt_trichotomy q 0.9 with h90 | h90 | h90
      · simp only [zScore, zQuantileClaim]
        rw [zLookup_of_ne q (ne_of_gt h05) (ne_of_gt h75) (ne_of_lt h90)
          (ne_of_lt (by linarith)) (ne_of_lt (by linarith))]
        rw [if_pos (show (0 : ℚ) = 0 ∧ q ≠ 0.5 from ⟨rfl, ne_of_gt h05⟩)]
        simp only [show (decide ((0.5 : ℚ) < q)) = true from decide_eq_true h05,
          show (decide ((0.75 : ℚ) < q)) = true from decide_eq_true h75,
          show (decide ((0.9 : ℚ) < q)) = false from
            decide_eq_false (by linarith),
          show (decide ((0.95 : ℚ) < q)) = false from
            decide_eq_false (by linarith),
          show (decide ((0.99 : ℚ) < q)) = false from
            decide_eq_false (by linarith),
          List.filter]
        rw [if_neg (show ¬(q ≤ 0.5) from not_le.mpr h05),
          if_neg (show ¬(q ≤ 0.75) from not_le.mpr h75),
          if_pos (show q ≤ 0.9 from le_of_lt h90)]
        norm_num [List.getD, zLookup]
      · subst h90
        norm_num [zScore, zLookup, zQuantileClaim]
      · rcases lt_trichotomy q 0.95 with h95 | h95 | h95
        · simp only [zScore, zQuantileClaim]
          rw [zLookup_of_ne q (ne_of_gt h05) (ne_of_gt h75) (ne_of_gt h90)
            (ne_of_lt h95) (ne_of_lt (by linarith))]
          rw [if_pos (show (0 : ℚ) = 0 ∧ q ≠ 0.5 from ⟨rfl, ne_of_gt h05⟩)]
          simp only [show (decide ((0.5 : ℚ) < q)) = true from
              decide_eq_true h05,
            show (decide ((0.75 : ℚ) < q)) = true from decide_eq_true h75,
            show (decide ((0.9 : ℚ) < q)) = true from decide_eq_true h90,
            show (decide ((0.95 : ℚ) < q)) = false from
              decide_eq_false (by linarith),
            show (decide ((0.99 : ℚ) < q)) = false from
              decide_eq_false (by linarith),
            List.filter]
          rw [if_neg (show ¬(q ≤ 0.5) from not_le.mpr h05),
            if_neg (show ¬(q ≤ 0.75) from not_le.mpr h75),
            if_neg (show ¬(q ≤ 0.9) from not_le.mpr h90),
            if_pos (show q ≤ 0.95 from le_of_lt h95)]
          norm_num [List.getD, zLookup]
        · subst h95
          norm_num [zScore, zLookup, zQuantileClaim]
        · rcases lt_trichotomy q 0.99 with h99 | h99 | h99
          · simp only [zScore, zQuantileClaim]
            rw [zLookup_of_ne q (ne_of_gt h05) (ne_of_gt h75) (ne_of_gt h90)
              (ne_of_gt h95) (ne_of_lt h99)]
            rw [if_pos (show (0 : ℚ) = 0 ∧ q ≠ 0.5 from ⟨rfl, ne_of_gt h05⟩)]
            simp only [show (decide ((0.5 : ℚ) < q)) = true from
                decide_eq_true h05,
              show (decide ((0.75 : ℚ) < q)) = true from decide_eq_true h75,
              show (decide ((0.9 : ℚ) < q)) = true from decide_eq_true h90,
              show (decide ((0.95 : ℚ) < q)) = true from decide_eq_true h95,
              show (decide ((0.99 : ℚ) < q)) = false from
                decide_eq_false (by linarith),
              List.filter]
            rw [if_neg (show ¬(q ≤ 0.5) from not_le.mpr h05),
              if_neg (show ¬(q ≤ 0.75) from not_le.mpr h75),
              if_neg (show ¬(q ≤ 0.9) from not_le.mpr h90),
              if_neg (show ¬(q ≤ 0.95) from not_le.mpr h95),
              if_pos (show q ≤ 0.99 from le_of_lt h99)]
            norm_num [List.getD, zLookup]
          · subst h99
            norm_num [zScore, zLookup, zQuantileClaim]
          · simp only [zScore, zQuantileClaim]
            rw [zLookup_of_ne q (ne_of_gt h05) (ne_of_gt h75) (ne_of_gt h90)
              (ne_of_gt h95) (ne_of_gt h99)]
            rw [if_pos (show (0 : ℚ) = 0 ∧ q ≠ 0.5 from ⟨rfl, ne_of_gt h05⟩)]
            simp only [show (decide ((0.5 : ℚ) < q)) = true from
                decide_eq_true h05,
              show (decide ((0.75 : ℚ) < q)) = true from decide_eq_true h75,
              show (decide ((0.9 : ℚ) < q)) = true from decide_eq_true h90,
              show (decide ((0.95 : ℚ) < q)) = true from decide_eq_true h95,
              show (decide ((0.99 : ℚ) < q)) = true from decide_eq_true h99,
              List.filter]
            rw [if_neg (show ¬(q ≤ 0.5) from not_le.mpr h05),
              if_neg (show ¬(q ≤ 0.75) from not_le.mpr h75),
              if_neg (show ¬(q ≤ 0.9) from not_le.mpr h90),
              if_neg (show ¬(q ≤ 0.95) from not_le.mpr h95),
              if_neg (show ¬(q ≤ 0.99) from not_le.mpr h99)]
            norm_num

/-- A non-negative float multiplied by a positive finite factor stays
non-negative (`nan` and `ninf` are not non-negative to begin with). -/
theorem mul_posfactor_nonneg (b : PyVal) (f : ℚ) (hf : 0 < f)
    (hb : PyVal.le (PyVal.fin 0) b = true) :
    PyVal.le (PyVal.fin 0) (PyVal.mul b (PyVal.fin f)) = true := by
  cases b with
  | fin q =>
    simp only [PyVal.le, decide_eq_true_eq] at hb ⊢
    simp only [PyVal.mul, PyVal.le, decide_eq_true_eq]
    positivity
  | pinf =>
    simp only [PyVal.mul]
    rw [if_pos hf]
    simp [PyVal.le]
  | ninf => simp [PyVal.le] at hb
  | nan => simp [PyVal.le] at hb

/-- Whenever `predict_slippage_linear` returns on a sorted book with
non-negative levels, a non-empty relevant side and positive finite
quantity, its value is non-negative: below 10 history points it is the
theoretical walk (non-negative by the walk lemmas), otherwise it is
`max(0.0, ...)`. -/
theorem predict_linear_nonneg (psqrt : ℚ → ℚ) (st : SlippageState)
    (ob : OrderBook) (qv : ℚ) (is_buy : Bool) (hq : 0 < qv)
    (hsa : asksSorted ob) (hsb : bidsSorted ob)
    (hpa : ∀ l ∈ ob.asks, 0 ≤ l.price ∧ 0 ≤ l.quantity)
    (hpb : ∀ l ∈ ob.bids, 0 ≤ l.price ∧ 0 ≤ l.quantity)
    (hne : (if is_buy then ob.asks else ob.bids) ≠ []) :
    ∀ b, predict_slippage_linear psqrt st ob (PyVal.fin qv) is_buy =
      Except.ok b → PyVal.le (PyVal.fin 0) b = true := by
  intro b hb
  unfold predict_slippage_linear at hb
  by_cases hlen : st.price_impact_history.length < 10
  · rw [if_pos hlen] at hb
    cases is_buy with
    | true =>
      exact theoretical_impact_buy_nonneg ob qv hq hsa hpa
        (by simpa using hne) b hb
    | false =>
      exact theoretical_impact_sell_nonneg ob qv hq hsb hpb
        (by simpa using hne) b hb
  · rw [if_neg hlen] at hb
    obtain ⟨features, hfe, hb2⟩ := exceptBind_ok _ _ _ hb
    cases hfh : st.features_history with
    | nil =>
      rw [hfh] at hb2
      dsimp only at hb2
      obtain ⟨nf, hnf, hb3⟩ := exceptBind_ok _ _ _ hb2
      obtain ⟨ti, hti, hb4⟩ := exceptBind_ok _ _ _ hb3
      simp only [Except.ok.injEq] at hb4
      rw [← hb4]
      exact pymax_zero_nonneg _
    | cons f0 fs =>
      rw [hfh] at hb2
      dsimp only at hb2
      obtain ⟨n1, hn1, hb3⟩ := exceptBind_ok _ _ _ hb2
      obtain ⟨n2, hn2, hb4⟩ := exceptBind_ok _ _ _ hb3
      obtain ⟨n3, hn3, hb5⟩ := exceptBind_ok _ _ _ hb4
      obtain ⟨n4, hn4, hb6⟩ := exceptBind_ok _ _ _ hb5
      obtain ⟨n5, hn5, hb7⟩ := exceptBind_ok _ _ _ hb6
      obtain ⟨y, hy, hb8⟩ := exceptBind_ok _ _ _ hb7
      obtain ⟨ti, hti, hb9⟩ := exceptBind_ok _ _ _ hb8
      simp only [Except.ok.injEq] at hb9
      rw [← hb9]
      exact pymax_zero_nonneg _

/-- C8 (amended): `predict_slippage_quantile` on a sorted book with
non-negative levels, a **non-empty relevant side** and positive finite
quantity.  With fewer than 20 price-impact history points it returns the
linear prediction scaled by `1 + 2*(q - 0.5)` for `q > 0.5` and unchanged
for `q <= 0.5`; with 20 or more it returns
`max(0, 0.6*(mean + z(q)*std) + 0.4*linear)` over the relevant side's
historical impacts, with `z` the spec's table-with-interpolation map
`zQuantileClaim`; and every value it returns is non-negative.  The
non-empty-side hypothesis is necessary for the last part: on an empty
relevant side the below-20 branches return the un-floored theoretical
figure, which is `nan` there (see
`predict_slippage_quantile_empty_asks_nan`), so the original claim's
"floored at zero in all cases" does not hold over every orderbook. -/
theorem predict_slippage_quantile_spec (psqrt : ℚ → ℚ) (st : SlippageState)
    (ob : OrderBook) (qv : ℚ) (is_buy : Bool) (quantile : ℚ)
    (hq : 0 < qv)
    (hsa : asksSorted ob) (hsb : bidsSorted ob)
    (hpa : ∀ l ∈ ob.asks, 0 ≤ l.price ∧ 0 ≤ l.quantity)
    (hpb : ∀ l ∈ ob.bids, 0 ≤ l.price ∧ 0 ≤ l.quantity)
    (hne : (if is_buy then ob.asks else ob.bids) ≠ []) :
    (st.price_impact_history.length < 20 →
      predict_slippage_quantile psqrt st ob (PyVal.fin qv) is_buy quantile =
        Except.map (fun b => if 0.5 < quantile then
            PyVal.mul b (PyVal.fin (1 + 2 * (quantile - 0.5))) else b)
          (predict_slippage_linear psqrt st ob (PyVal.fin qv) is_buy)) ∧
    (20 ≤ st.price_impact_history.length →
      predict_slippage_quantile psqrt st ob (PyVal.fin qv) is_buy quantile =
        (predict_slippage_linear psqrt st ob (PyVal.fin qv) is_buy) >>=
          fun b => Except.map (fun sd => PyVal.pymax (PyVal.fin 0)
            (PyVal.add
              (PyVal.mul (PyVal.fin 0.6)
                (PyVal.add
                  (pyMean (st.price_impact_history.map
                    (fun h => if is_buy then h.2.1 else h.2.2)))
                  (PyVal.mul (PyVal.fin (zQuantileClaim quantile)) sd)))
              (PyVal.mul (PyVal.fin 0.4) b)))
            (pyStd psqrt (st.price_impact_history.map
              (fun h => if is_buy then h.2.1 else h.2.2)))) ∧
    (∀ r, predict_slippage_quantile psqrt st ob (PyVal.fin qv) is_buy
        quantile = Except.ok r → PyVal.le (PyVal.fin 0) r = true) := by
  refine ⟨?_, ?_, ?_⟩
  · intro hlen
    unfold predict_slippage_quantile
    cases hb : predict_slippage_linear psqrt st ob (PyVal.fin qv) is_buy with
    | error e => simp [Bind.bind, Except.bind, Except.map]
    | ok b =>
      simp only [Bind.bind, Except.bind, Except.map]
      rw [if_pos hlen]
      by_cases hcq : (0.5 : ℚ) < quantile
      · rw [if_pos hcq, if_pos hcq]
        have hfac : (1 + (quantile - 0.5) * 2) =
            (1 + 2 * (quantile - 0.5)) := by ring
        rw [hfac]
      · rw [if_neg hcq, if_neg hcq]
  · intro hlen
    have hlt : ¬(st.price_impact_history.length < 20) := not_lt.mpr hlen
    unfold predict_slippage_quantile
    cases hb : predict_slippage_linear psqrt st ob (PyVal.fin qv) is_buy with
    | error e => simp [Bind.bind, Except.bind, Except.map]
    | ok b =>
      simp only [Bind.bind, Except.bind, Except.map]
      rw [if_neg hlt]
      have hnemp : ((st.price_impact_history.map
          (fun h => if is_buy then h.2.1 else h.2.2)).isEmpty = true) →
          False := by
        intro hemp
        rw [List.isEmpty_iff, List.map_eq_nil_iff] at hemp
        rw [hemp] at hlen
        simp at hlen
      rw [if_neg hnemp]
      cases hsd : pyStd psqrt (st.price_impact_history.map
          (fun h => if is_buy then h.2.1 else h.2.2)) with
      | error e => rfl
      | ok sd =>
        simp only [Except.ok.injEq]
        rw [zScore_eq_zQuantileClaim]
        have h46 : ((1 : ℚ) - 0.6) = 0.4 := by norm_num
        rw [h46]
  · intro r hr
    unfold predict_slippage_quantile at hr
    obtain ⟨b, hb, hr2⟩ := exceptBind_ok _ _ _ hr
    have hbn : PyVal.le (PyVal.fin 0) b = true :=
      predict_linear_nonneg psqrt st ob qv is_buy hq hsa hsb hpa hpb hne b hb
    by_cases hlen : st.price_impact_history.length < 20
    · rw [if_pos hlen] at hr2
      by_cases hcq : (0.5 : ℚ) < quantile
      · rw [if_pos hcq] at hr2
        simp only [Except.ok.injEq] at hr2
        rw [← hr2]
        exact mul_posfactor_nonneg b _ (by linarith) hbn
      · rw [if_neg hcq] at hr2
        simp only [Except.ok.injEq] at hr2
        rw [← hr2]
        exact hbn
    · rw [if_neg hlen] at hr2
      by_cases hemp : (st.price_impact_history.map
          (fun h => if is_buy then h.2.1 else h.2.2)).isEmpty = true
      · rw [if_pos hemp] at hr2
        simp only [Except.ok.injEq] at hr2
        rw [← hr2]
        exact hbn
      · rw [if_neg hemp] at hr2
        obtain ⟨sd, hsd, hr3⟩ := exceptBind_ok _ _ _ hr2
        simp only [Except.ok.injEq] at hr3
        rw [← hr3]
        exact pymax_zero_nonneg _

/-- A concrete sorted, uncrossed one-level book for the C8 witness. -/
def sampleBook2 : OrderBook :=
  { timestamp := "t2", exchange := "OKX", symbol := "BTC-USDT"
    asks := [{ price := 100, quantity := 5 }]
    bids := [{ price := 99, quantity := 4 }] }

/-- C8 (witness): the fresh model holds 0 < 20 history points, so a buy of
quantity 1 at quantile 0.9 on `sampleBook2` returns the linear prediction
scaled by the quantile factor. -/
theorem predict_slippage_quantile_spec_witness :
    SlippageModel.init.price_impact_history.length < 20 ∧
    predict_slippage_quantile (fun _ => (0 : ℚ)) SlippageModel.init
        sampleBook2 (PyVal.fin 1) true 0.9 =
      Except.map (fun b => if (0.5 : ℚ) < 0.9 then
          PyVal.mul b (PyVal.fin (1 + 2 * ((0.9 : ℚ) - 0.5))) else b)
        (predict_slippage_linear (fun _ => (0 : ℚ)) SlippageModel.init
          sampleBook2 (PyVal.fin 1) true) := by
  have h20 : SlippageModel.init.price_impact_history.length < 20 := by
    simp [SlippageModel.init]
  refine ⟨h20, ?_⟩
  exact (predict_slippage_quantile_spec (fun _ => (0 : ℚ)) SlippageModel.init
    sampleBook2 1 true 0.9 (by norm_num)
    (by simp [asksSorted, sampleBook2])
    (by simp [bidsSorted, sampleBook2])
    (by intro l hl
        simp only [sampleBook2, List.mem_singleton] at hl
        rw [hl]
        norm_num)
    (by intro l hl
        simp only [sampleBook2, List.mem_singleton] at hl
        rw [hl]
        norm_num)
    (by simp [sampleBook2])).1 h20

/-- A book whose ask side is empty (`best_ask = inf`), as the data model
explicitly allows. -/
def emptyAskBook : OrderBook :=
  { timestamp := "t4", exchange := "OKX", symbol := "BTC-USDT"
    asks := []
    bids := [{ price := 99, quantity := 4 }] }

/-- The theoretical walk against the empty ask side: the unfilled
remainder is priced at `best_ask = inf`, and `inf / inf` is `nan`. -/
theorem emptyAsk_theoretical_eval :
    theoretical_price_impact emptyAskBook (PyVal.fin 1) true =
      Except.ok PyVal.nan := by
  norm_num [theoretical_price_impact, OrderBook.best_ask,
    OrderBook.best_bid, emptyAskBook, walkStep, List.foldl, PyVal.le,
    PyVal.lt, PyVal.pymin, PyVal.div, PyVal.divCore, PyVal.mul, PyVal.add,
    PyVal.sub, PyVal.neg, Bind.bind, Except.bind]
  simp [PyVal.add, PyVal.mul]

/-- C8 (counterexample): on a fresh model, a buy of one unit against the
empty ask side returns `nan`, not a value floored at zero: the
below-10-history path prices the unfilled remainder at
`best_ask = inf`, divides `inf / inf = nan`, and the below-20 branch
passes the theoretical figure through with no `max(0, .)` applied.
`nan` is not `>= 0` under CPython comparison. -/
theorem predict_slippage_quantile_empty_asks_nan :
    predict_slippage_quantile (fun _ => (0 : ℚ)) SlippageModel.init
      emptyAskBook (PyVal.fin 1) true 0.9 = Except.ok PyVal.nan ∧
    PyVal.le (PyVal.fin 0) PyVal.nan = false := by
  constructor
  · norm_num [predict_slippage_quantile, predict_slippage_linear,
      SlippageModel.init, emptyAsk_theoretical_eval, PyVal.lt, PyVal.mul,
      Bind.bind, Except.bind]
  · rfl

/-! ## `src/models/market_impact.py` -/

/-- `ImpactModelType`: the impact model enumeration. -/
inductive ImpactModelType where
  | ALMGREN_CHRISS
  | SQUARE_ROOT
  | LINEAR
  | CUSTOM
deriving DecidableEq, Repr

/-- The `.value` string of each `ImpactModelType` member. -/
def ImpactModelType.value : ImpactModelType → String
  | .ALMGREN_CHRISS => "almgren-chriss"
  | .SQUARE_ROOT => "square-root"
  | .LINEAR => "linear"
  | .CUSTOM => "custom"

/-- `ImpactModelType(s)`, the enum lookup by value; `none` models the
`ValueError` raised for a string that is no member's value. -/
def ImpactModelType.ofValue? (s : String) : Option ImpactModelType :=
  if s = "almgren-chriss" then some .ALMGREN_CHRISS
  else if s = "square-root" then some .SQUARE_ROOT
  else if s = "linear" then some .LINEAR
  else if s = "custom" then some .CUSTOM
  else none

/-- The `MarketImpactModel.params` dict (fixed keys, float values). -/
structure ImpactParams where
  ac_temporary_impact : ℚ
  ac_permanent_impact : ℚ
  ac_volatility_scaling : ℚ
  sqrt_impact_factor : ℚ
  linear_impact_factor : ℚ
  spread_cost_factor : ℚ
  min_impact : ℚ
deriving DecidableEq, Repr

/-- The parameter values set by `MarketImpactModel.__init__`. -/
def MarketImpactModel.defaultParams : ImpactParams :=
  { ac_temporary_impact := 0.1, ac_permanent_impact := 0.02
    ac_volatility_scaling := 0.5, sqrt_impact_factor := 0.1
    linear_impact_factor := 0.01, spread_cost_factor := 0.5
    min_impact := 0.0001 }

/-- The `MarketImpactModel.market_estimates` dict (fixed keys). -/
structure MarketEstimates where
  volatility : PyVal
  adv : PyVal
  market_depth : PyVal
deriving DecidableEq, Repr

/-- The mutable state of `MarketImpactModel`. -/
structure ImpactState where
  model_type : ImpactModelType
  params : ImpactParams
  market_estimates : MarketEstimates
  prediction_accuracy : List (PyVal × PyVal × PyVal)
deriving DecidableEq, Repr

/-- `MarketImpactModel.__init__` with the default model type. -/
def MarketImpactModel.init : ImpactState :=
  { model_type := ImpactModelType.ALMGREN_CHRISS
    params := MarketImpactModel.defaultParams
    market_estimates :=
      { volatility := PyVal.fin 0, adv := PyVal.fin 0
        market_depth := PyVal.fin 0 }
    prediction_accuracy := [] }

/-- The dict returned by `MarketImpactModel._extract_market_parameters`.
The depth sums and the ADV proxy are exact rationals (sums of level
quantities); the metric-derived entries are floats. -/
structure MarketParams where
  mid_price : PyVal
  volatility : PyVal
  bid_depth : ℚ
  ask_depth : ℚ
  total_depth : ℚ
  spread_pct : PyVal
  adv_proxy : ℚ
deriving DecidableEq, Repr

/-- The return value of `_extract_market_parameters(orderbook, metrics)`.
The Python method also assigns `self.market_estimates`; that mutation is
`newMarketEstimates` below, applied by `calculate_impact`. -/
def extract_market_parameters (ob : OrderBook) (m : MarketMetrics) :
    MarketParams :=
  let mid_price := ob.mid_price
  let volatility := PyVal.divCore m.volatility (PyVal.fin 100)
  let bid_depth : ℚ := (ob.bids.map (fun l => l.quantity)).sum
  let ask_depth : ℚ := (ob.asks.map (fun l => l.quantity)).sum
  let total_depth := bid_depth + ask_depth
  { mid_price := mid_price
    volatility := volatility
    bid_depth := bid_depth
    ask_depth := ask_depth
    total_depth := total_depth
    spread_pct :=
      if PyVal.lt (PyVal.fin 0) mid_price
      then PyVal.divCore ob.spread mid_price else PyVal.fin 0
    adv_proxy := total_depth * 1000 }

/-- The `self.market_estimates` assignment performed inside
`_extract_market_parameters`. -/
def newMarketEstimates (ob : OrderBook) (m : MarketMetrics) :
    MarketEstimates :=
  let p := extract_market_parameters ob m
  { volatility := p.volatility, adv := PyVal.fin p.adv_proxy
    market_depth := PyVal.fin p.total_depth }

/-- The result dict of every impact model implementation. -/
structure ImpactResults where
  temporary_impact : PyVal
  permanent_impact : PyVal
  total_impact : PyVal
  impact_cost : PyVal
  relative_size : PyVal
  pct_of_adv : PyVal
  spread_cost_pct : PyVal
deriving DecidableEq, Repr

/-- The order-size features shared by all three impact implementations. -/
def impactRelativeSize (mp : MarketParams) (quantity : PyVal) : PyVal :=
  if 0 < mp.total_depth
  then PyVal.divCore quantity (PyVal.fin mp.total_depth) else PyVal.fin 1

/-- `pct_of_adv`, shared by all three impact implementations. -/
def impactPctOfAdv (mp : MarketParams) (quantity : PyVal) : PyVal :=
  if 0 < mp.adv_proxy
  then PyVal.mul (PyVal.divCore quantity (PyVal.fin mp.adv_proxy))
    (PyVal.fin 100)
  else PyVal.fin 1

/-- `MarketImpactModel._almgren_chriss_impact`.  `math.sqrt` of the
relative size makes it fallible. -/
def almgren_chriss_impact (psqrt : ℚ → ℚ) (p : ImpactParams)
    (mp : MarketParams) (quantity : PyVal) (is_buy : Bool) :
    Except PyErr ImpactResults := do
  let relative_size := impactRelativeSize mp quantity
  let pct_of_adv := impactPctOfAdv mp quantity
  let spread_cost := PyVal.mul mp.spread_pct (PyVal.fin p.spread_cost_factor)
  let temp_impact_factor :=
    PyVal.mul
      (PyVal.mul
        (PyVal.mul (PyVal.fin p.ac_temporary_impact) mp.volatility)
        (PyVal.add (PyVal.fin 1) relative_size))
      (PyVal.add (PyVal.fin 1)
        (PyVal.mul (PyVal.fin p.ac_volatility_scaling) mp.volatility))
  let root ← PyVal.sqrt psqrt relative_size
  let temporary_impact :=
    PyVal.add spread_cost (PyVal.mul temp_impact_factor root)
  let permanent_impact :=
    PyVal.mul
      (PyVal.mul
        (PyVal.mul (PyVal.fin p.ac_permanent_impact) mp.volatility)
        relative_size)
      (PyVal.add (PyVal.fin 1)
        (PyVal.divCore
          (PyVal.mul (PyVal.fin p.ac_volatility_scaling) mp.volatility)
          (PyVal.fin 2)))
  let total_impact := PyVal.add temporary_impact permanent_impact
  let total_impact := PyVal.pymax total_impact (PyVal.fin p.min_impact)
  let impact_cost := PyVal.mul (PyVal.mul mp.mid_price quantity) total_impact
  Except.ok
    { temporary_impact := PyVal.mul temporary_impact (PyVal.fin 100)
      permanent_impact := PyVal.mul permanent_impact (PyVal.fin 100)
      total_impact := PyVal.mul total_impact (PyVal.fin 100)
      impact_cost := impact_cost
      relative_size := relative_size
      pct_of_adv := pct_of_adv
      spread_cost_pct := PyVal.mul spread_cost (PyVal.fin 100) }

/-- `MarketImpactModel._square_root_impact`. -/
def square_root_impact (psqrt : ℚ → ℚ) (p : ImpactParams)
    (mp : MarketParams) (quantity : PyVal) (is_buy : Bool) :
    Except PyErr ImpactResults := do
  let relative_size := impactRelativeSize mp quantity
  let pct_of_adv := impactPctOfAdv mp quantity
  let spread_cost := PyVal.mul mp.spread_pct (PyVal.fin p.spread_cost_factor)
  let impact_factor :=
    PyVal.mul (PyVal.fin p.sqrt_impact_factor)
      (PyVal.add (PyVal.fin 1) mp.volatility)
  let root ← PyVal.sqrt psqrt relative_size
  let total_impact := PyVal.add spread_cost (PyVal.mul impact_factor root)
  let total_impact := PyVal.pymax total_impact (PyVal.fin p.min_impact)
  let impact_cost := PyVal.mul (PyVal.mul mp.mid_price quantity) total_impact
  Except.ok
    { temporary_impact := PyVal.mul total_impact (PyVal.fin 100)
      permanent_impact := PyVal.fin 0
      total_impact := PyVal.mul total_impact (PyVal.fin 100)
      impact_cost := impact_cost
      relative_size := relative_size
      pct_of_adv := pct_of_adv
      spread_cost_pct := PyVal.mul spread_cost (PyVal.fin 100) }

/-- `MarketImpactModel._linear_impact` (no square root, so infallible). -/
def linear_impact (p : ImpactParams) (mp : MarketParams) (quantity : PyVal)
    (is_buy : Bool) : ImpactResults :=
  let relative_size := impactRelativeSize mp quantity
  let pct_of_adv := impactPctOfAdv mp quantity
  let spread_cost := PyVal.mul mp.spread_pct (PyVal.fin p.spread_cost_factor)
  let impact_factor :=
    PyVal.mul (PyVal.fin p.linear_impact_factor)
      (PyVal.add (PyVal.fin 1) mp.volatility)
  let total_impact :=
    PyVal.add spread_cost (PyVal.mul impact_factor relative_size)
  let total_impact := PyVal.pymax total_impact (PyVal.fin p.min_impact)
  let impact_cost := PyVal.mul (PyVal.mul mp.mid_price quantity) total_impact
  { temporary_impact := PyVal.mul total_impact (PyVal.fin 100)
    permanent_impact := PyVal.fin 0
    total_impact := PyVal.mul total_impact (PyVal.fin 100)
    impact_cost := impact_cost
    relative_size := relative_size
    pct_of_adv := pct_of_adv
    spread_cost_pct := PyVal.mul spread_cost (PyVal.fin 100) }

/-- `MarketImpactModel.calculate_impact(orderbook, metrics, quantity,
is_buy)`: extract market parameters (which updates
`self.market_estimates`), then dispatch on `self.model_type`, with
anything other than the three named implementations (i.e. `CUSTOM`)
falling through to Almgren-Chriss. -/
def calculate_impact (psqrt : ℚ → ℚ) (st : ImpactState) (ob : OrderBook)
    (m : MarketMetrics) (quantity : PyVal) (is_buy : Bool) :
    Except PyErr ImpactResults × ImpactState :=
  let market_params := extract_market_parameters ob m
  let st2 := { st with market_estimates := newMarketEstimates ob m }
  let results :=
    match st.model_type with
    | ImpactModelType.ALMGREN_CHRISS =>
        almgren_chriss_impact psqrt st.params market_params quantity is_buy
    | ImpactModelType.SQUARE_ROOT =>
        square_root_impact psqrt st.params market_params quantity is_buy
    | ImpactModelType.LINEAR =>
        Except.ok (linear_impact st.params market_params quantity is_buy)
    | ImpactModelType.CUSTOM =>
        almgren_chriss_impact psqrt st.params market_params quantity is_buy
  (results, st2)

/-- The dict returned by `MarketImpactModel.get_model_info`. -/
structure ModelInfo where
  model_type : String
  parameters : ImpactParams
  market_estimates : MarketEstimates
  accuracy_sample_count : Nat
  accuracy_mean_error : PyVal
deriving DecidableEq, Repr

/-- `MarketImpactModel.get_model_info()`. -/
def get_model_info (st : ImpactState) : ModelInfo :=
  { model_type := st.model_type.value
    parameters := st.params
    market_estimates := st.market_estimates
    accuracy_sample_count := st.prediction_accuracy.length
    accuracy_mean_error :=
      if st.prediction_accuracy.isEmpty then PyVal.fin 0
      else PyVal.divCore
        (PyVal.listSum (st.prediction_accuracy.map (fun it => it.2.2)))
        (PyVal.fin st.prediction_accuracy.length) }

/-! ## `src/models/maker_taker.py` -/

/-- The `MakerTakerEstimator.params` dict (fixed keys, float values). -/
structure MTParams where
  base_maker_proportion : PyVal
  volatility_sensitivity : PyVal
  spread_sensitivity : PyVal
  depth_imbalance_sensitivity : PyVal
deriving DecidableEq, Repr

/-- The feature dict of `MakerTakerEstimator._extract_features`. -/
structure MTFeatures where
  mid_price : PyVal
  spread_pct : PyVal
  spread_factor : PyVal
  volatility : PyVal
  vol_factor : PyVal
  depth_imbalance : PyVal
  imbalance_factor : PyVal
deriving DecidableEq, Repr

/-- One `MakerTakerEstimator.history` entry. -/
structure MTHistEntry where
  timestamp : String
  is_buy : Bool
  is_limit : Bool
  maker_proportion : PyVal
  features : MTFeatures
deriving DecidableEq, Repr

/-- The mutable state of `MakerTakerEstimator`. -/
structure MTState where
  params : MTParams
  history : List MTHistEntry
deriving DecidableEq, Repr

/-- `MakerTakerEstimator.__init__`. -/
def MakerTakerEstimator.init : MTState :=
  { params :=
      { base_maker_proportion := PyVal.fin 0.7
        volatility_sensitivity := PyVal.fin 0.5
        spread_sensitivity := PyVal.fin 0.3
        depth_imbalance_sensitivity := PyVal.fin 0.2 }
    history := [] }

/-- `MakerTakerEstimator._extract_features(orderbook, metrics)`.  All the
divisions are positivity-guarded or by nonzero literals. -/
def mt_extract_features (ob : OrderBook) (m : MarketMetrics) : MTFeatures :=
  let mid_price := ob.mid_price
  let spread_pct :=
    if PyVal.lt (PyVal.fin 0) mid_price
    then PyVal.divCore ob.spread mid_price else PyVal.fin 0
  let spread_factor :=
    PyVal.pymin (PyVal.fin 1) (PyVal.mul spread_pct (PyVal.fin 1000))
  let volatility := PyVal.divCore m.volatility (PyVal.fin 100)
  let vol_factor :=
    PyVal.pymin (PyVal.fin 1) (PyVal.divCore volatility (PyVal.fin 0.05))
  let depth_imbalance :=
    if PyVal.lt (PyVal.fin 0) (PyVal.add m.bid_depth m.ask_depth)
    then PyVal.divCore (PyVal.sub m.bid_depth m.ask_depth)
      (PyVal.add m.bid_depth m.ask_depth)
    else PyVal.fin 0
  let imbalance_factor :=
    PyVal.pymax (PyVal.fin (-1)) (PyVal.pymin (PyVal.fin 1) depth_imbalance)
  { mid_price := mid_price, spread_pct := spread_pct
    spread_factor := spread_factor, volatility := volatility
    vol_factor := vol_factor, depth_imbalance := depth_imbalance
    imbalance_factor := imbalance_factor }

/-- The dict returned by `estimate_proportion` (`features` is the empty
dict, `none` here, on the market-order fast path). -/
structure MTResult where
  maker_proportion : PyVal
  taker_proportion : PyVal
  features : Option MTFeatures
deriving DecidableEq, Repr

/-- `MakerTakerEstimator.estimate_proportion(orderbook, metrics, is_buy,
is_limit)`: all-taker for market orders; otherwise the base proportion
adjusted for volatility, spread and depth imbalance, clamped to `[0,1]`,
with the estimate appended to the bounded history. -/
def estimate_proportion (st : MTState) (ob : OrderBook) (m : MarketMetrics)
    (is_buy : Bool) (is_limit : Bool) : MTResult × MTState :=
  if is_limit = false then
    ({ maker_proportion := PyVal.fin 0, taker_proportion := PyVal.fin 1
       features := none }, st)
  else
    let features := mt_extract_features ob m
    let mp1 :=
      PyVal.mul st.params.base_maker_proportion
        (PyVal.sub (PyVal.fin 1)
          (PyVal.mul st.params.volatility_sensitivity features.vol_factor))
    let mp2 :=
      PyVal.mul mp1
        (PyVal.add (PyVal.fin 1)
          (PyVal.mul st.params.spread_sensitivity features.spread_factor))
    let imbalance_effect :=
      if is_buy then PyVal.mul (PyVal.fin (-1)) features.imbalance_factor
      else features.imbalance_factor
    let mp3 :=
      PyVal.mul mp2
        (PyVal.add (PyVal.fin 1)
          (PyVal.mul st.params.depth_imbalance_sensitivity imbalance_effect))
    let maker_proportion :=
      PyVal.pymax (PyVal.fin 0) (PyVal.pymin (PyVal.fin 1) mp3)
    let hist2 := st.history ++
      [{ timestamp := ob.timestamp, is_buy := is_buy, is_limit := is_limit
         maker_proportion := maker_proportion, features := features }]
    let hist3 := if 100 < hist2.length then hist2.tail else hist2
    ({ maker_proportion := maker_proportion
       taker_proportion := PyVal.sub (PyVal.fin 1) maker_proportion
       features := some features },
     { st with history := hist3 })

/-! ## `src/services/simulator.py` -/

/-- `OrderType`. -/
inductive OrderType where
  | MARKET
  | LIMIT
  | STOP
  | STOP_LIMIT
deriving DecidableEq, Repr

/-- The `.value` string of each `OrderType` member. -/
def OrderType.value : OrderType → String
  | .MARKET => "market"
  | .LIMIT => "limit"
  | .STOP => "stop"
  | .STOP_LIMIT => "stop_limit"

/-- `OrderType(s)`; `none` models the `ValueError` branch. -/
def OrderType.ofValue? (s : String) : Option OrderType :=
  if s = "market" then some .MARKET
  else if s = "limit" then some .LIMIT
  else if s = "stop" then some .STOP
  else if s = "stop_limit" then some .STOP_LIMIT
  else none

/-- `TradeSide`. -/
inductive TradeSide where
  | BUY
  | SELL
deriving DecidableEq, Repr

/-- The `.value` string of each `TradeSide` member. -/
def TradeSide.value : TradeSide → String
  | .BUY => "buy"
  | .SELL => "sell"

/-- `TradeSide(s)`; `none` models the `ValueError` branch. -/
def TradeSide.ofValue? (s : String) : Option TradeSide :=
  if s = "buy" then some .BUY
  else if s = "sell" then some .SELL
  else none

/-- `SimulationMode`. -/
inductive SimulationMode where
  | STANDARD
  | ADVANCED
  | BATCH
deriving DecidableEq, Repr

/-- `SimulationMode(s)`; `none` models the `ValueError` branch. -/
def SimulationMode.ofValue? (s : String) : Option SimulationMode :=
  if s = "standard" then some .STANDARD
  else if s = "advanced" then some .ADVANCED
  else if s = "batch" then some .BATCH
  else none

/-- The `.name` string of each `FeeTier` member. -/
def FeeTier.name : FeeTier → String
  | .TIER1 => "TIER1"
  | .TIER2 => "TIER2"
  | .TIER3 => "TIER3"
  | .TIER4 => "TIER4"
  | .TIER5 => "TIER5"

/-- `FeeTier[s]`, the enum lookup by member name; `none` models the
`KeyError` branch. -/
def FeeTier.ofName? (s : String) : Option FeeTier :=
  if s = "TIER1" then some .TIER1
  else if s = "TIER2" then some .TIER2
  else if s = "TIER3" then some .TIER3
  else if s = "TIER4" then some .TIER4
  else if s = "TIER5" then some .TIER5
  else none

/-- The request dict passed to `simulate_trade`, with one `Option` field
per key the method reads (`none` = key absent).  The enum-typed keys are
modelled in their string form, which is how the request layer supplies
them. -/
structure SimParams where
  exchange : Option String := none
  symbol : Option String := none
  order_type : Option String := none
  side : Option String := none
  quantity : Option PyVal := none
  quantity_quote : Option PyVal := none
  volatility : Option PyVal := none
  fee_tier : Option String := none
  impact_model : Option String := none
  simulation_mode : Option String := none
deriving DecidableEq, Repr

/-- The wall-clock readings one `simulate_trade` call makes:
`time.time()` at entry and exit (exact rational seconds) and
`datetime.now().isoformat()`. -/
structure Clock where
  start_time : ℚ
  end_time : ℚ
  now_iso : String
deriving DecidableEq, Repr

/-- The `"market_impact"` sub-dict of a simulation result. -/
structure SimImpactSummary where
  temporary_impact_pct : PyVal
  permanent_impact_pct : PyVal
  total_impact_pct : PyVal
  impact_cost : PyVal
  relative_size : PyVal
  pct_of_adv : PyVal
deriving DecidableEq, Repr

/-- The `"fees"` sub-dict of a simulation result. -/
structure SimFeeSummary where
  maker_proportion : PyVal
  taker_proportion : PyVal
  maker_fee_rate : PyVal
  taker_fee_rate : PyVal
  maker_fee : PyVal
  taker_fee : PyVal
  total_fee : PyVal
  effective_fee_rate : PyVal
deriving DecidableEq, Repr

/-- The `"advanced"` sub-dict added in `SimulationMode.ADVANCED`. -/
structure AdvancedInfo where
  maker_taker_features : Option MTFeatures
  volatility_estimates : List (String × PyVal)
  impact_model_info : ModelInfo
deriving DecidableEq, Repr

/-- The full simulation result dict of a completed `simulate_trade`. -/
structure SimResult where
  exchange : String
  symbol : String
  order_type : String
  side : String
  quantity : PyVal
  order_value : PyVal
  fee_tier : String
  impact_model : String
  mid_price : PyVal
  spread : PyVal
  spread_bps : PyVal
  volatility : PyVal
  expected_slippage_pct : PyVal
  expected_slippage_cost : PyVal
  market_impact : SimImpactSummary
  fees : SimFeeSummary
  net_cost : PyVal
  net_cost_pct : PyVal
  internal_latency_ms : PyVal
  avg_latency_ms : PyVal
  timestamp : String
  advanced : Option AdvancedInfo
deriving DecidableEq, Repr

/-- What `simulate_trade` returns when it returns at all: either the
`\x7b"error": msg\x7d` dict of the two validation early returns, or a full
result dict. -/
inductive SimOutcome where
  | errorResult (msg : String)
  | ok (r : SimResult)
deriving DecidableEq, Repr

/-- One entry of a batch's `results` list: either
`\x7b"variation": v, "result": r\x7d` or, when that variation's simulation
raised, `\x7b"variation": v, "error": str(e)\x7d`. -/
inductive BatchEntry where
  | result (variation : SimParams) (r : SimOutcome)
  | errorEntry (variation : SimParams) (msg : String)
deriving DecidableEq, Repr

/-- The batch-result dict `start_batch_simulation` puts on
`self.batch_results`. -/
structure BatchResult where
  batch_id : String
  count : Nat
  processing_time : PyVal
  results : List BatchEntry
deriving DecidableEq, Repr

/-- The mutable state of `TradeSimulator` that its methods read or write.
`self.result_cache` is constructed by `__init__` but never read or
written by any method, and is omitted.  `max_workers` is an `Option`
because `__init__` (which receives `num_threads`) never assigns
`self.max_workers`; `none` models the absent attribute. -/
structure SimulatorState where
  slippage : SlippageState
  impact : ImpactState
  maker_taker : MTState
  volatility_calc : VolatilityState
  latest_orderbook : Option OrderBook
  latest_metrics : Option MarketMetrics
  processing_times : List PyVal
  max_workers : Option Nat
  batch_results : List BatchResult

/-- `TradeSimulator.__init__` (any `num_threads`): fresh models, no
market data, no recorded processing times, and no `max_workers`
attribute. -/
def TradeSimulator.init : SimulatorState :=
  { slippage := SlippageModel.init
    impact := MarketImpactModel.init
    maker_taker := MakerTakerEstimator.init
    volatility_calc := VolatilityCalculator.init
    latest_orderbook := none
    latest_metrics := none
    processing_times := []
    max_workers := none
    batch_results := [] }

/-- Lines 510-519 of `simulate_trade`: convert `quantity_quote` at the
mid price when `quantity <= 0 < quantity_quote` (a live division), then
fail with the `"Invalid quantity"` result (`none` here) when the
resolved quantity is still not positive. -/
def resolveQuantity (quantity quantity_quote mid_price : PyVal) :
    Except PyErr (Option PyVal) := do
  let q ←
    if PyVal.le quantity (PyVal.fin 0) && PyVal.lt (PyVal.fin 0) quantity_quote
    then PyVal.div quantity_quote mid_price
    else Except.ok quantity
  if PyVal.le q (PyVal.fin 0) then Except.ok none else Except.ok (some q)

/-- `TradeSimulator.simulate_trade(params)`.  The pair is (what the call
returns or raises, the simulator state when it does); each early exit
carries the mutations made up to that point: in particular the
`self.impact_model.model_type` assignment happens before quantity
validation, so even the `"Invalid quantity"` result and every later
exception leave the overwritten model type behind. -/
def simulate_trade (psqrt : ℚ → ℚ) (params : SimParams) (clock : Clock)
    (st : SimulatorState) : Except PyErr SimOutcome × SimulatorState :=
  match st.latest_orderbook, st.latest_metrics with
  | none, _ =>
    (Except.ok (SimOutcome.errorResult "No market data available for simulation"), st)
  | some _, none =>
    (Except.ok (SimOutcome.errorResult "No market data available for simulation"), st)
  | some lob, some lmet =>
    let exchange := params.exchange.getD "OKX"
    let symbol := params.symbol.getD lob.symbol
    let order_type :=
      (OrderType.ofValue? (params.order_type.getD "market")).getD
        OrderType.MARKET
    let side :=
      (TradeSide.ofValue? (params.side.getD "buy")).getD TradeSide.BUY
    let quantity0 := params.quantity.getD (PyVal.fin 0)
    let quantity_quote := params.quantity_quote.getD (PyVal.fin 0)
    let fee_tier :=
      (FeeTier.ofName? (params.fee_tier.getD "TIER1")).getD FeeTier.TIER1
    let impact_model_type :=
      (ImpactModelType.ofValue? (params.impact_model.getD "almgren-chriss")).getD
        ImpactModelType.ALMGREN_CHRISS
    let st1 :=
      { st with impact := { st.impact with model_type := impact_model_type } }
    let simulation_mode :=
      (SimulationMode.ofValue? (params.simulation_mode.getD "standard")).getD
        SimulationMode.STANDARD
    let mid_price := lob.mid_price
    match resolveQuantity quantity0 quantity_quote mid_price with
    | Except.error e => (Except.error e, st1)
    | Except.ok none =>
      (Except.ok (SimOutcome.errorResult "Invalid quantity"), st1)
    | Except.ok (some quantity) =>
      let is_buy := match side with
        | TradeSide.BUY => true
        | TradeSide.SELL => false
      let is_limit := match order_type with
        | OrderType.LIMIT => true
        | OrderType.STOP_LIMIT => true
        | _ => false
      let order_value := PyVal.mul quantity mid_price
      match (match params.volatility with
             | some v => Except.ok v
             | none => get_current_volatility psqrt st.volatility_calc) with
      | Except.error e => (Except.error e, st1)
      | Except.ok volatility =>
        let metrics_with_override := { lmet with volatility := volatility }
        match predict_slippage_quantile psqrt st.slippage lob quantity is_buy 0.9 with
        | Except.error e => (Except.error e, st1)
        | Except.ok slippage_pct =>
          let slippage_cost :=
            PyVal.divCore (PyVal.mul order_value slippage_pct) (PyVal.fin 100)
          let impact_pair :=
            calculate_impact psqrt st1.impact lob metrics_with_override
              quantity is_buy
          let st2 := { st1 with impact := impact_pair.2 }
          match impact_pair.1 with
          | Except.error e => (Except.error e, st2)
          | Except.ok impact_results =>
            let mt_pair :=
              estimate_proportion st.maker_taker lob metrics_with_override
                is_buy is_limit
            let maker_taker_results := mt_pair.1
            let st3 := { st2 with maker_taker := mt_pair.2 }
            let maker_proportion := maker_taker_results.maker_proportion
            let fee_results := calculate_fees order_value fee_tier maker_proportion
            let net_cost :=
              PyVal.add (PyVal.add slippage_cost impact_results.impact_cost)
                fee_results.total_fee
            let net_cost_pct :=
              if PyVal.lt (PyVal.fin 0) order_value
              then PyVal.mul (PyVal.divCore net_cost order_value) (PyVal.fin 100)
              else PyVal.fin 0
            let processing_time_ms :=
              PyVal.fin ((clock.end_time - clock.start_time) * 1000)
            let times2 := st.processing_times ++ [processing_time_ms]
            let times3 := if 100 < times2.length then times2.tail else times2
            let st4 := { st3 with processing_times := times3 }
            let advancedPart : Except PyErr (Option AdvancedInfo) :=
              match simulation_mode with
              | SimulationMode.ADVANCED => do
                let vest ← get_volatility psqrt st.volatility_calc "all"
                Except.ok (some
                  { maker_taker_features := maker_taker_results.features
                    volatility_estimates := vest
                    impact_model_info := get_model_info st2.impact })
              | _ => Except.ok none
            match advancedPart with
            | Except.error e => (Except.error e, st4)
            | Except.ok adv =>
              (Except.ok (SimOutcome.ok
                { exchange := exchange
                  symbol := symbol
                  order_type := order_type.value
                  side := side.value
                  quantity := quantity
                  order_value := order_value
                  fee_tier := fee_tier.name
                  impact_model := impact_model_type.value
                  mid_price := mid_price
                  spread := lob.spread
                  spread_bps :=
                    if PyVal.lt (PyVal.fin 0) mid_price
                    then PyVal.mul (PyVal.divCore lob.spread mid_price)
                      (PyVal.fin 10000)
                    else PyVal.fin 0
                  volatility := volatility
                  expected_slippage_pct := slippage_pct
                  expected_slippage_cost := slippage_cost
                  market_impact :=
                    { temporary_impact_pct := impact_results.temporary_impact
                      permanent_impact_pct := impact_results.permanent_impact
                      total_impact_pct := impact_results.total_impact
                      impact_cost := impact_results.impact_cost
                      relative_size := impact_results.relative_size
                      pct_of_adv := impact_results.pct_of_adv }
                  fees :=
                    { maker_proportion := maker_proportion
                      taker_proportion :=
                        PyVal.sub (PyVal.fin 1) maker_proportion
                      maker_fee_rate := fee_results.maker_fee_rate
                      taker_fee_rate := fee_results.taker_fee_rate
                      maker_fee := fee_results.maker_fee
                      taker_fee := fee_results.taker_fee
                      total_fee := fee_results.total_fee
                      effective_fee_rate := fee_results.effective_fee_rate }
                  net_cost := net_cost
                  net_cost_pct := net_cost_pct
                  internal_latency_ms := processing_time_ms
                  avg_latency_ms :=
                    if times3.length = 0 then PyVal.fin 0
                    else PyVal.divCore (PyVal.listSum times3)
                      (PyVal.fin times3.length)
                  timestamp := clock.now_iso
                  advanced := adv }), st4)

/-- `str(e)` for the exceptions the embedding models (the message text
itself is never branched on). -/
def PyErr.toMessage : PyErr → String
  | .zeroDivision => "float division by zero"
  | .valueError => "math domain error"
  | .attributeError a => "TradeSimulator object has no attribute " ++ a

/-- `params = base_params.copy(); params.update(variation)`: every key the
variation supplies overrides the base value. -/
def mergeParams (base variation : SimParams) : SimParams :=
  { exchange := variation.exchange.orElse (fun _ => base.exchange)
    symbol := variation.symbol.orElse (fun _ => base.symbol)
    order_type := variation.order_type.orElse (fun _ => base.order_type)
    side := variation.side.orElse (fun _ => base.side)
    quantity := variation.quantity.orElse (fun _ => base.quantity)
    quantity_quote :=
      variation.quantity_quote.orElse (fun _ => base.quantity_quote)
    volatility := variation.volatility.orElse (fun _ => base.volatility)
    fee_tier := variation.fee_tier.orElse (fun _ => base.fee_tier)
    impact_model := variation.impact_model.orElse (fun _ => base.impact_model)
    simulation_mode :=
      variation.simulation_mode.orElse (fun _ => base.simulation_mode) }

/-- `TradeSimulator.start_batch_simulation(base_params, param_variations)`.
Reading `self.max_workers` comes first (the `ThreadPoolExecutor`
construction): `__init__` never assigns that attribute, so the `none`
state raises `AttributeError` before any variation runs.  The worker pool
is modelled as running the submitted simulations in submission order
(results are collected in that order either way); per-variation
exceptions are caught and recorded as `\x7b"variation", "error"\x7d`
entries.  All calls of one batch share the `clock` readings; `batch_id`
uses `int(time.time())` of the entry reading. -/
def start_batch_simulation (psqrt : ℚ → ℚ) (base_params : SimParams)
    (param_variations : List SimParams) (clock : Clock)
    (st : SimulatorState) : Except PyErr (String × SimulatorState) :=
  let batch_id := "batch_" ++ toString (Rat.floor clock.start_time)
  match st.max_workers with
  | none => Except.error (PyErr.attributeError "max_workers")
  | some _ =>
    let step := fun (acc : List BatchEntry × SimulatorState)
        (variation : SimParams) =>
      let merged := mergeParams base_params variation
      let out := simulate_trade psqrt merged clock acc.2
      match out.1 with
      | Except.ok r => (acc.1 ++ [BatchEntry.result variation r], out.2)
      | Except.error e =>
        (acc.1 ++ [BatchEntry.errorEntry variation (PyErr.toMessage e)], out.2)
    let folded := param_variations.foldl step ([], st)
    let batch : BatchResult :=
      { batch_id := batch_id
        count := folded.1.length
        processing_time :=
          PyVal.fin (clock.end_time - (Rat.floor clock.start_time : ℚ))
        results := folded.1 }
    Except.ok (batch_id,
      { folded.2 with batch_results := folded.2.batch_results ++ [batch] })

/-- The quantity sweep of the specification's batch example. -/
def quantitySweep : List SimParams :=
  [{ quantity := some (PyVal.fin 0.05) },
   { quantity := some (PyVal.fin 0.1) },
   { quantity := some (PyVal.fin 0.2) }]

/-- C1: on a freshly constructed simulator, `start_batch_simulation` with
the specification's 3-variation quantity sweep does not produce a
3-result batch: it raises `AttributeError` at once, because `__init__`
never assigns the `self.max_workers` attribute the worker-pool
construction reads.  Had the attribute existed (second conjunct: the same
state with `max_workers` present), the claimed behaviour holds: the batch
completes with `count = 3` and one entry per variation in submission
order, each carrying its own variation dict, failures captured per
item — here each simulation returns its `"No market data"` error result
rather than aborting the batch. -/
theorem start_batch_missing_max_workers :
    start_batch_simulation (fun _ => (0 : ℚ)) {} quantitySweep
        { start_time := 0, end_time := 0, now_iso := "t0" }
        TradeSimulator.init =
      Except.error (PyErr.attributeError "max_workers") ∧
    (∃ stF,
      start_batch_simulation (fun _ => (0 : ℚ)) {} quantitySweep
          { start_time := 0, end_time := 0, now_iso := "t0" }
          { TradeSimulator.init with max_workers := some 4 } =
        Except.ok ("batch_0", stF) ∧
      stF.batch_results =
        [{ batch_id := "batch_0"
           count := 3
           processing_time := PyVal.fin 0
           results := quantitySweep.map (fun v => BatchEntry.result v
             (SimOutcome.errorResult
               "No market data available for simulation")) }]) := by
  refine ⟨rfl, ⟨_, rfl, ?_⟩⟩
  norm_num [TradeSimulator.init, quantitySweep, simulate_trade, mergeParams,
    List.foldl, List.map, Rat.floor]
  rfl

/-- Lines 494-498 of `simulate_trade`: the requested impact model type,
defaulting to Almgren-Chriss when the parameter is absent or not a known
model value. -/
def resolveImpactModelType (p : SimParams) : ImpactModelType :=
  (ImpactModelType.ofValue? (p.impact_model.getD "almgren-chriss")).getD
    ImpactModelType.ALMGREN_CHRISS

/-- C10: with market data present, every `simulate_trade` call (the
successful ones in particular) leaves the shared impact model's
`model_type` overwritten with the request's resolved `impact_model`
parameter, whatever the outcome; `get_model_info` reports exactly the
stored type's value (so any later read observes the most recent
request's choice, not the constructor's); and the resolution defaults to
`ALMGREN_CHRISS` when the parameter is absent or unrecognized. -/
theorem impact_model_overwrite (psqrt : ℚ → ℚ) (params : SimParams)
    (clock : Clock) (st : SimulatorState) (ob : OrderBook)
    (met : MarketMetrics) (hob : st.latest_orderbook = some ob)
    (hmet : st.latest_metrics = some met) :
    ((simulate_trade psqrt params clock st).2.impact.model_type =
      resolveImpactModelType params) ∧
    (∀ ist : ImpactState,
      (get_model_info ist).model_type = ist.model_type.value) ∧
    (params.impact_model = none →
      resolveImpactModelType params = ImpactModelType.ALMGREN_CHRISS) ∧
    (∀ s, ImpactModelType.ofValue? s = none →
      resolveImpactModelType { params with impact_model := some s } =
        ImpactModelType.ALMGREN_CHRISS) := by
  refine ⟨?_, fun ist => rfl,
    fun h => by
      simp [resolveImpactModelType, h, Option.getD, ImpactModelType.ofValue?],
    fun s hs => by
      simp [resolveImpactModelType, hs, Option.getD]⟩
  unfold simulate_trade
  rw [hob, hmet]
  dsimp only
  repeat' split
  all_goals simp [calculate_impact, resolveImpactModelType]

/-- Market metrics matching `sampleBook2`, used by concrete scenarios. -/
def sampleMetrics : MarketMetrics :=
  { timestamp := "t1", symbol := "BTC-USDT", mid_price := PyVal.fin 99.5
    spread := PyVal.fin 1, bid_depth := PyVal.fin 4
    ask_depth := PyVal.fin 5, volatility := PyVal.fin 2 }

/-- A freshly constructed simulator that has ingested `sampleBook2` and
`sampleMetrics`. -/
def readySimulator : SimulatorState :=
  { TradeSimulator.init with
    latest_orderbook := some sampleBook2
    latest_metrics := some sampleMetrics }

/-- C10 (witness): a request selecting the `"linear"` model against the
ready simulator leaves that choice in the shared model state. -/
theorem impact_model_overwrite_witness :
    readySimulator.latest_orderbook = some sampleBook2 ∧
    readySimulator.latest_metrics = some sampleMetrics ∧
    (simulate_trade (fun _ => (0 : ℚ)) { impact_model := some "linear" }
        { start_time := 0, end_time := 0, now_iso := "t1" }
        readySimulator).2.impact.model_type =
      resolveImpactModelType { impact_model := some "linear" } :=
  ⟨rfl, rfl,
    (impact_model_overwrite (fun _ => (0 : ℚ)) _ _ _ _ _ rfl rfl).1⟩

/-- A float strictly above zero is not `<= 0` (CPython comparison). -/
theorem PyVal.lt_zero_le (q : PyVal) (h : PyVal.lt (PyVal.fin 0) q = true) :
    PyVal.le q (PyVal.fin 0) = false := by
  cases q <;> simp_all [PyVal.lt, PyVal.le] <;> linarith

set_option maxHeartbeats 1000000 in
/-- C9: base-currency `quantity` takes precedence.  With `quantity > 0`
the quote quantity is ignored entirely (the resolution is `quantity`
itself, whatever `quantity_quote` is); the quote conversion through the
mid price runs exactly when `quantity <= 0 < quantity_quote`; the
`"Invalid quantity"` outcome (`ok none`) happens exactly when
`quantity <= 0` and the conversion path fails to produce a positive
quantity; and inside `simulate_trade` (market data present) the
`"Invalid quantity"` error result appears exactly when the resolution
returns `none`. -/
theorem quantity_precedence (psqrt : ℚ → ℚ) (params : SimParams)
    (clock : Clock) (st : SimulatorState) (ob : OrderBook)
    (met : MarketMetrics) (q qq qq2 mid : PyVal)
    (hob : st.latest_orderbook = some ob)
    (hmet : st.latest_metrics = some met) :
    (PyVal.lt (PyVal.fin 0) q = true →
      resolveQuantity q qq mid = Except.ok (some q) ∧
      resolveQuantity q qq mid = resolveQuantity q qq2 mid) ∧
    (PyVal.le q (PyVal.fin 0) = true → PyVal.lt (PyVal.fin 0) qq = true →
      resolveQuantity q qq mid =
        PyVal.div qq mid >>= fun v =>
          if PyVal.le v (PyVal.fin 0) then Except.ok none
          else Except.ok (some v)) ∧
    (resolveQuantity q qq mid = Except.ok none ↔
      PyVal.le q (PyVal.fin 0) = true ∧
        (PyVal.lt (PyVal.fin 0) qq = false ∨
         ∃ v, PyVal.div qq mid = Except.ok v ∧
           PyVal.le v (PyVal.fin 0) = true)) ∧
    ((simulate_trade psqrt params clock st).1 =
        Except.ok (SimOutcome.errorResult "Invalid quantity") ↔
      resolveQuantity (params.quantity.getD (PyVal.fin 0))
        (params.quantity_quote.getD (PyVal.fin 0)) ob.mid_price =
        Except.ok none) := by
  refine ⟨?_, ?_, ?_, ?_⟩
  · intro h
    have hle := PyVal.lt_zero_le q h
    constructor
    · simp [resolveQuantity, hle, Bind.bind, Except.bind]
    · simp [resolveQuantity, hle, Bind.bind, Except.bind]
  · intro h1 h2
    cases hdv : PyVal.div qq mid with
    | error e => simp [resolveQuantity, h1, h2, hdv, Bind.bind, Except.bind]
    | ok v => simp [resolveQuantity, h1, h2, hdv, Bind.bind, Except.bind]
  · by_cases hq : PyVal.le q (PyVal.fin 0) = true
    · by_cases hqq : PyVal.lt (PyVal.fin 0) qq = true
      · cases hdv : PyVal.div qq mid with
        | error e =>
          simp [resolveQuantity, hq, hqq, hdv, Bind.bind, Except.bind]
        | ok v =>
          by_cases hv : PyVal.le v (PyVal.fin 0) = true
          · simp [resolveQuantity, hq, hqq, hdv, hv, Bind.bind, Except.bind]
          · rw [Bool.not_eq_true] at hv
            simp [resolveQuantity, hq, hqq, hdv, hv, Bind.bind, Except.bind]
      · rw [Bool.not_eq_true] at hqq
        simp [resolveQuantity, hq, hqq, Bind.bind, Except.bind]
    · rw [Bool.not_eq_true] at hq
      simp [resolveQuantity, hq, Bind.bind, Except.bind]
  · unfold simulate_trade
    rw [hob, hmet]
    dsimp only
    repeat' split
    all_goals dsimp only
    all_goals simp_all

/-- C9 (witness): a positive base quantity resolves to itself with the
quote quantity ignored. -/
theorem quantity_precedence_witness :
    readySimulator.latest_orderbook = some sampleBook2 ∧
    readySimulator.latest_metrics = some sampleMetrics ∧
    PyVal.lt (PyVal.fin 0) (PyVal.fin 1) = true ∧
    resolveQuantity (PyVal.fin 1) (PyVal.fin 9999) (PyVal.fin 50) =
      Except.ok (some (PyVal.fin 1)) :=
  ⟨rfl, rfl, by norm_num [PyVal.lt],
    ((quantity_precedence (fun _ => (0 : ℚ)) {}
      { start_time := 0, end_time := 0, now_iso := "t1" } readySimulator
      sampleBook2 sampleMetrics (PyVal.fin 1) (PyVal.fin 9999)
      (PyVal.fin 7) (PyVal.fin 50) rfl rfl).1
        (by norm_num [PyVal.lt])).1⟩

/-- An ingestible book whose bid side is empty (`best_bid = 0.0`). -/
def emptyBidBook : OrderBook :=
  { timestamp := "t3", exchange := "OKX", symbol := "BTC-USDT"
    asks := [{ price := 100, quantity := 5 }]
    bids := [] }

/-- Metrics accompanying `emptyBidBook`. -/
def emptyBidMetrics : MarketMetrics :=
  { timestamp := "t3", symbol := "BTC-USDT", mid_price := PyVal.fin 50
    spread := PyVal.fin 100, bid_depth := PyVal.fin 0
    ask_depth := PyVal.fin 5, volatility := PyVal.fin 2 }

/-- A fresh simulator that has ingested `emptyBidBook`. -/
def sellCrashSimulator : SimulatorState :=
  { TradeSimulator.init with
    latest_orderbook := some emptyBidBook
    latest_metrics := some emptyBidMetrics }

/-- A plain sell request of one unit with an explicit volatility. -/
def sellCrashParams : SimParams :=
  { side := some "sell", quantity := some (PyVal.fin 1)
    volatility := some (PyVal.fin 2) }

/-- C4: `simulate_trade` CAN raise.  With market data present and a valid
positive quantity, a sell against an empty bid side propagates
`ZeroDivisionError` out of the slippage model (the walk prices against
`best_bid = 0.0`), escaping as an exception instead of the error-field
result dict the claim promises for every parameter dict. -/
theorem sellCrash_slippage_eval :
    predict_slippage_quantile (fun _ => (0 : ℚ)) SlippageModel.init
      emptyBidBook (PyVal.fin 1) false 0.9 =
      Except.error PyErr.zeroDivision := by
  norm_num [predict_slippage_quantile, predict_slippage_linear,
    SlippageModel.init, theoretical_price_impact, OrderBook.best_bid,
    OrderBook.best_ask, OrderBook.mid_price, emptyBidBook, walkStep,
    List.foldl, PyVal.le, PyVal.lt, PyVal.div, PyVal.divCore, PyVal.mul,
    PyVal.add, PyVal.sub, PyVal.neg, Bind.bind, Except.bind]

theorem sellCrash_resolve_eval :
    resolveQuantity (PyVal.fin 1) (PyVal.fin 0) emptyBidBook.mid_price =
      Except.ok (some (PyVal.fin 1)) := by
  norm_num [resolveQuantity, PyVal.le, PyVal.lt, Bind.bind, Except.bind]

theorem simulate_trade_sell_empty_bids_raises :
    (simulate_trade (fun _ => (0 : ℚ)) sellCrashParams
      { start_time := 0, end_time := 0, now_iso := "t3" }
      sellCrashSimulator).1 = Except.error PyErr.zeroDivision := by
  unfold simulate_trade
  rw [show sellCrashSimulator.latest_orderbook = some emptyBidBook from rfl,
    show sellCrashSimulator.latest_metrics = some emptyBidMetrics from rfl]
  dsimp only
  rw [show sellCrashParams.quantity.getD (PyVal.fin 0) = PyVal.fin 1 from rfl,
    show sellCrashParams.quantity_quote.getD (PyVal.fin 0) = PyVal.fin 0
      from rfl,
    sellCrash_resolve_eval]
  dsimp only
  rw [show sellCrashParams.volatility = some (PyVal.fin 2) from rfl]
  dsimp only
  rw [show sellCrashSimulator.slippage = SlippageModel.init from rfl,
    show (TradeSide.ofValue? (sellCrashParams.side.getD "buy")).getD
        TradeSide.BUY = TradeSide.SELL from rfl]
  dsimp only
  rw [sellCrash_slippage_eval]

/-- Drop the latency-average field of a result (set it to `0.0`). -/
def scrubLatency (r : SimResult) : SimResult :=
  { r with avg_latency_ms := PyVal.fin 0 }

/-- `scrubLatency` applied under the outcome constructors. -/
def scrubOutcome : Except PyErr SimOutcome → Except PyErr SimOutcome
  | Except.ok (SimOutcome.ok r) => Except.ok (SimOutcome.ok (scrubLatency r))
  | x => x

/-- The result part of `calculate_impact` reads only the model type and
parameters of the state: the incoming estimates and accuracy history are
irrelevant to it. -/
theorem calculate_impact_fst_canon (psqrt : ℚ → ℚ) (s : ImpactState)
    (ob : OrderBook) (m : MarketMetrics) (q : PyVal) (b : Bool) :
    (calculate_impact psqrt s ob m q b).1 =
      (calculate_impact psqrt
        { model_type := s.model_type, params := s.params
          market_estimates :=
            { volatility := PyVal.fin 0, adv := PyVal.fin 0
              market_depth := PyVal.fin 0 }
          prediction_accuracy := [] } ob m q b).1 := rfl

/-- The state part of `calculate_impact`: only the market estimates
change, to values computed from the inputs alone. -/
theorem calculate_impact_snd (psqrt : ℚ → ℚ) (s : ImpactState)
    (ob : OrderBook) (m : MarketMetrics) (q : PyVal) (b : Bool) :
    (calculate_impact psqrt s ob m q b).2 =
      { s with market_estimates := newMarketEstimates ob m } := rfl

/-- The result part of `estimate_proportion` reads only the parameters of
the state: the history is only written to. -/
theorem estimate_proportion_fst_canon (s : MTState) (ob : OrderBook)
    (m : MarketMetrics) (b l : Bool) :
    (estimate_proportion s ob m b l).1 =
      (estimate_proportion { params := s.params, history := [] }
        ob m b l).1 := by
  cases l <;> rfl

/-- The state part of `estimate_proportion` keeps the parameters. -/
theorem estimate_proportion_snd_params (s : MTState) (ob : OrderBook)
    (m : MarketMetrics) (b l : Bool) :
    (estimate_proportion s ob m b l).2.params = s.params := by
  cases l <;> rfl

set_option maxHeartbeats 1600000 in
/-- One `simulate_trade` call, whatever its outcome, does not change the
slippage model, the volatility calculator, the ingested market data, the
impact model parameters and accuracy history, or the maker/taker
parameters. -/
theorem simulate_trade_state_preserves (psqrt : ℚ → ℚ) (params : SimParams)
    (clock : Clock) (st : SimulatorState) :
    (simulate_trade psqrt params clock st).2.slippage = st.slippage ∧
    (simulate_trade psqrt params clock st).2.volatility_calc =
      st.volatility_calc ∧
    (simulate_trade psqrt params clock st).2.latest_orderbook =
      st.latest_orderbook ∧
    (simulate_trade psqrt params clock st).2.latest_metrics =
      st.latest_metrics ∧
    (simulate_trade psqrt params clock st).2.impact.params =
      st.impact.params ∧
    (simulate_trade psqrt params clock st).2.impact.prediction_accuracy =
      st.impact.prediction_accuracy ∧
    (simulate_trade psqrt params clock st).2.maker_taker.params =
      st.maker_taker.params := by
  refine ⟨?_, ?_, ?_, ?_, ?_, ?_, ?_⟩ <;>
    (unfold simulate_trade
     cases hob : st.latest_orderbook
     all_goals cases hmet : st.latest_metrics
     all_goals dsimp only
     all_goals repeat' split
     all_goals first
       | rfl
       | simp [calculate_impact_snd, estimate_proportion_snd_params]
       | simp_all [calculate_impact_snd, estimate_proportion_snd_params])

set_option maxHeartbeats 1600000 in
/-- What one `simulate_trade` call returns (or raises), with the
latency-average field set aside, depends only on the state components the
call reads: two states agreeing on those produce the same outcome. -/
theorem simulate_trade_result_dep (psqrt : ℚ → ℚ) (params : SimParams)
    (clock : Clock) (st st2 : SimulatorState)
    (h1 : st2.slippage = st.slippage)
    (h2 : st2.volatility_calc = st.volatility_calc)
    (h3 : st2.latest_orderbook = st.latest_orderbook)
    (h4 : st2.latest_metrics = st.latest_metrics)
    (h5 : st2.impact.params = st.impact.params)
    (h6 : st2.impact.prediction_accuracy = st.impact.prediction_accuracy)
    (h7 : st2.maker_taker.params = st.maker_taker.params) :
    scrubOutcome (simulate_trade psqrt params clock st2).1 =
      scrubOutcome (simulate_trade psqrt params clock st).1 := by
  unfold simulate_trade
  rw [h3, h4]
  cases hob : st.latest_orderbook with
  | none => rfl
  | some lob =>
    cases hmet : st.latest_metrics with
    | none => rfl
    | some lmet =>
      dsimp only
      rw [h1, h2]
      simp only [calculate_impact_fst_canon, calculate_impact_snd,
        estimate_proportion_fst_canon]
      dsimp only
      rw [h5, h6, h7]
      repeat' (first
        | rfl
        | (split <;> rename_i heq <;> (try rw [heq]) <;> (try dsimp only)))
      all_goals simp_all [scrubOutcome, scrubLatency]

/-- C3 (amended): calling `simulate_trade` twice with identical inputs
and no intervening market-data update yields identical outcomes except
possibly the `avg_latency_ms` field (the first call appends to
`processing_times`, which the second call averages over). -/
theorem simulate_trade_idempotent_modulo_latency (psqrt : ℚ → ℚ)
    (params : SimParams) (clock : Clock) (st : SimulatorState) :
    scrubOutcome (simulate_trade psqrt params clock
      ((simulate_trade psqrt params clock st).2)).1 =
      scrubOutcome (simulate_trade psqrt params clock st).1 := by
  obtain ⟨p1, p2, p3, p4, p5, p6, p7⟩ :=
    simulate_trade_state_preserves psqrt params clock st
  exact simulate_trade_result_dep psqrt params clock st _ p1 p2 p3 p4 p5 p6 p7

/-- A fixed pair of clock readings shared by both calls of the
idempotence scenario (entry and exit read the same instant, so the
per-call latency sample is exactly `0.0` both times). -/
def clock0 : Clock := { start_time := 0, end_time := 0, now_iso := "t0" }

/-- The latency-average field of an outcome, when there is one. -/
def avgOf : Except PyErr SimOutcome → Option PyVal
  | Except.ok (SimOutcome.ok r) => some r.avg_latency_ms
  | _ => none

/-- The ready simulator with one pre-existing latency sample of 10 ms. -/
def idemSimulator : SimulatorState :=
  { readySimulator with processing_times := [PyVal.fin 10] }

/-- A market buy of one unit with explicit volatility and the linear
impact model. -/
def idemParams : SimParams :=
  { order_type := some "market", side := some "buy"
    quantity := some (PyVal.fin 1), volatility := some (PyVal.fin 2)
    impact_model := some "linear" }

/-- The simulator state after the first `idemParams` call. -/
def idemSimulator2 : SimulatorState :=
  { idemSimulator with
    impact := { idemSimulator.impact with
      model_type := ImpactModelType.LINEAR
      market_estimates := newMarketEstimates sampleBook2
        { sampleMetrics with volatility := PyVal.fin 2 } }
    processing_times := [PyVal.fin 10, PyVal.fin 0] }

/-- Quantity resolution of the idempotence scenario. -/
theorem idem_resolve_eval :
    resolveQuantity (PyVal.fin 1) (PyVal.fin 0) sampleBook2.mid_price =
      Except.ok (some (PyVal.fin 1)) := by
  norm_num [resolveQuantity, PyVal.le, PyVal.lt, Bind.bind, Except.bind]

/-- The theoretical walk of the idempotence scenario: a one-unit buy
fills at the best ask exactly, so the impact is zero. -/
theorem idem_theoretical_eval :
    theoretical_price_impact sampleBook2 (PyVal.fin 1) true =
      Except.ok (PyVal.fin 0) := by
  norm_num [theoretical_price_impact, OrderBook.best_ask,
    OrderBook.best_bid, sampleBook2, walkStep, List.foldl, PyVal.le,
    PyVal.lt, PyVal.pymin, PyVal.div, PyVal.divCore, PyVal.mul, PyVal.add,
    PyVal.sub, PyVal.neg, Bind.bind, Except.bind]

/-- Slippage prediction of the idempotence scenario: zero theoretical
impact scaled by the quantile factor is still zero. -/
theorem idem_slippage_eval :
    predict_slippage_quantile (fun _ => (0 : ℚ)) SlippageModel.init
      sampleBook2 (PyVal.fin 1) true 0.9 = Except.ok (PyVal.fin 0) := by
  norm_num [predict_slippage_quantile, predict_slippage_linear,
    SlippageModel.init, idem_theoretical_eval, PyVal.lt, PyVal.mul,
    Bind.bind, Except.bind]

/-- First call of the idempotence scenario: the latency average over
`[10, 0]` is 5, and the state afterwards is `idemSimulator2`. -/
theorem idem_first_eval :
    avgOf (simulate_trade (fun _ => (0 : ℚ)) idemParams clock0
      idemSimulator).1 = some (PyVal.fin 5) ∧
    (simulate_trade (fun _ => (0 : ℚ)) idemParams clock0
      idemSimulator).2 = idemSimulator2 := by
  unfold simulate_trade
  rw [show idemSimulator.latest_orderbook = some sampleBook2 from rfl,
    show idemSimulator.latest_metrics = some sampleMetrics from rfl]
  try dsimp only
  rw [show idemParams.quantity.getD (PyVal.fin 0) = PyVal.fin 1 from rfl,
    show idemParams.quantity_quote.getD (PyVal.fin 0) = PyVal.fin 0 from rfl,
    idem_resolve_eval]
  try dsimp only
  rw [show idemParams.volatility = some (PyVal.fin 2) from rfl]
  try dsimp only
  rw [show idemSimulator.slippage = SlippageModel.init from rfl,
    show (TradeSide.ofValue? (idemParams.side.getD "buy")).getD
      TradeSide.BUY = TradeSide.BUY from rfl]
  try dsimp only
  rw [idem_slippage_eval]
  try dsimp only
  rw [show (ImpactModelType.ofValue?
      (idemParams.impact_model.getD "almgren-chriss")).getD
      ImpactModelType.ALMGREN_CHRISS = ImpactModelType.LINEAR from rfl,
    show (OrderType.ofValue? (idemParams.order_type.getD "market")).getD
      OrderType.MARKET = OrderType.MARKET from rfl,
    show (SimulationMode.ofValue?
      (idemParams.simulation_mode.getD "standard")).getD
      SimulationMode.STANDARD = SimulationMode.STANDARD from rfl]
  simp only [calculate_impact]
  try dsimp only
  constructor
  · norm_num [avgOf, idemSimulator, readySimulator, TradeSimulator.init,
      clock0, PyVal.listSum, PyVal.add, List.foldl, PyVal.divCore]
  · norm_num [estimate_proportion, idemSimulator, idemSimulator2, clock0,
      readySimulator, TradeSimulator.init, MarketImpactModel.init]

/-- Second call of the idempotence scenario: the latency average over
`[10, 0, 0]` is 10/3. -/
theorem idem_second_eval :
    avgOf (simulate_trade (fun _ => (0 : ℚ)) idemParams clock0
      idemSimulator2).1 = some (PyVal.fin (10 / 3)) := by
  unfold simulate_trade
  rw [show idemSimulator2.latest_orderbook = some sampleBook2 from rfl,
    show idemSimulator2.latest_metrics = some sampleMetrics from rfl]
  try dsimp only
  rw [show idemParams.quantity.getD (PyVal.fin 0) = PyVal.fin 1 from rfl,
    show idemParams.quantity_quote.getD (PyVal.fin 0) = PyVal.fin 0 from rfl,
    idem_resolve_eval]
  try dsimp only
  rw [show idemParams.volatility = some (PyVal.fin 2) from rfl]
  try dsimp only
  rw [show idemSimulator2.slippage = SlippageModel.init from rfl,
    show (TradeSide.ofValue? (idemParams.side.getD "buy")).getD
      TradeSide.BUY = TradeSide.BUY from rfl]
  try dsimp only
  rw [idem_slippage_eval]
  try dsimp only
  rw [show (ImpactModelType.ofValue?
      (idemParams.impact_model.getD "almgren-chriss")).getD
      ImpactModelType.ALMGREN_CHRISS = ImpactModelType.LINEAR from rfl,
    show (SimulationMode.ofValue?
      (idemParams.simulation_mode.getD "standard")).getD
      SimulationMode.STANDARD = SimulationMode.STANDARD from rfl]
  simp only [calculate_impact]
  try dsimp only
  norm_num [avgOf, idemSimulator2, idemSimulator, readySimulator, clock0,
    TradeSimulator.init, PyVal.listSum, PyVal.add, List.foldl, PyVal.divCore]

/-- C3 (counterexample): on a simulator holding one 10 ms latency sample,
two `simulate_trade` calls with identical parameters, identical clock
readings and no intervening update return different result dicts: the
first reports `avg_latency_ms = 5`, the second `10/3`, because the first
call appended to the shared `processing_times` list. -/
theorem simulate_trade_second_call_differs :
    avgOf (simulate_trade (fun _ => (0 : ℚ)) idemParams clock0
      idemSimulator).1 = some (PyVal.fin 5) ∧
    avgOf (simulate_trade (fun _ => (0 : ℚ)) idemParams clock0
      ((simulate_trade (fun _ => (0 : ℚ)) idemParams clock0
        idemSimulator).2)).1 = some (PyVal.fin (10 / 3)) ∧
    (simulate_trade (fun _ => (0 : ℚ)) idemParams clock0
      ((simulate_trade (fun _ => (0 : ℚ)) idemParams clock0
        idemSimulator).2)).1 ≠
      (simulate_trade (fun _ => (0 : ℚ)) idemParams clock0
        idemSimulator).1 := by
  have h1 := idem_first_eval
  refine ⟨h1.1, ?_, ?_⟩
  · rw [h1.2]
    exact idem_second_eval
  · rw [h1.2]
    intro hcontra
    have havg := congrArg avgOf hcontra
    rw [idem_second_eval, h1.1] at havg
    simp only [Option.some.injEq, PyVal.fin.injEq] at havg
    norm_num at havg

end Aegis
